import Mathlib

/-! # sisl logging header (`src/logging/include/logging.h`)

A shallow embedding of the logging and assertion macros of the header, of the
compile-time file-name helpers and of the logger-thread registry.

A statement produced by one of the header's macros is embedded as the
`Outcome` of running it in an environment `Env`: the list of externally
visible calls it makes, in order, and what happened to control afterwards.
-/

set_option autoImplicit false

namespace sds_logging

/-! ## Data model -/

/-- Severity levels, `spdlog::level::level_enum`, in declaration order. -/
inductive level_enum where
  | trace
  | debug
  | info
  | warn
  | err
  | critical
  | off
  deriving DecidableEq, Repr

/-- Numeric value of an enumerator of `spdlog::level::level_enum`. -/
def level_enum.toNat : level_enum → Nat
  | .trace => 0
  | .debug => 1
  | .info => 2
  | .warn => 3
  | .err => 4
  | .critical => 5
  | .off => 6

/-- Logging methods of `spdlog::logger` used by the header. -/
inductive Method where
  | trace
  | debug
  | info
  | warn
  | error
  | critical
  deriving DecidableEq, Repr

/-- Severity of the record a logger method writes. -/
def Method.severity : Method → level_enum
  | .trace => .trace
  | .debug => .debug
  | .info => .info
  | .warn => .warn
  | .error => .err
  | .critical => .critical

/-- Logger expressions handed to the macros: `sds_logging::GetCriticalLogger()`,
`sds_logging::GetLogger()`, or any other logger object, named by a number. -/
inductive LoggerRef where
  | GetCriticalLogger
  | GetLogger
  | other (id : Nat)
  deriving DecidableEq, Repr

/-- Call site of a macro: `__FILE__`, `__LINE__` and `__FUNCTION__`. -/
structure CallSite where
  file : String
  line : Nat
  function : String

/-- Everything a macro body reads from its surroundings.
`NDEBUG` says whether the build defines `NDEBUG`; `module_level` holds the
variables `module_level_<mod>`; `non_null` says which logger pointers are
non-null; `crash_handler_installed` is the value returned by
`is_crash_handler_installed()`; `empty_log_msg` is the value returned by the
argument-less overload `format_log_msg()`, which the header only declares;
`fmt_other_fields` is what the fmt library, which is not part of the
repository, makes of a format string and rendered arguments when the string
has a replacement field with an argument index, a name or a format
specification: the text, or `none` when it throws `fmt::format_error`. -/
structure Env where
  NDEBUG : Bool
  module_level : String → level_enum
  non_null : LoggerRef → Bool
  crash_handler_installed : Bool
  empty_log_msg : String
  fmt_other_fields : String → List String → Option String

/-- Externally visible steps of a macro body. -/
inductive Event where
  /-- The call `_l->method(fmt, args...)` on logger `l`. -/
  | log (l : LoggerRef) (method : Method) (fmt : String) (args : List String)
  /-- The call `_l->flush()` on logger `l`. -/
  | flush (l : LoggerRef)
  /-- The call `cb(_log_buf, msg, args...)` of a custom formatter. -/
  | formatter (msg : String) (args : List String)
  /-- The evaluation of the condition of an assertion. -/
  | eval_cond
  /-- The failing `assert(0)` of a build without `NDEBUG`. -/
  | assert_fail
  /-- The call `abort()`. -/
  | abort
  /-- The call `sds_logging::log_stack_trace(all_threads)`. -/
  | log_stack_trace (all_threads : Bool)
  /-- The call of a member through a null logger pointer. -/
  | null_deref (l : LoggerRef)
  deriving DecidableEq, Repr

/-- What happened to control: it reached the end of the statement, the process
was terminated, the behaviour is undefined, or an exception left the
statement. -/
inductive Status where
  | running
  | terminated
  | undefined
  | thrown
  deriving DecidableEq, Repr

/-- Outcome of a statement: the steps it made, in order, and its status. -/
structure Outcome where
  events : List Event
  status : Status
  deriving DecidableEq, Repr

/-- The empty statement. -/
def skip : Outcome := ⟨[], .running⟩

/-- An exception leaves the statement: the header has no handler, so it goes
on to the caller. -/
def throw_out : Outcome := ⟨[], .thrown⟩

/-- A single step after which control continues. -/
def emit (e : Event) : Outcome := ⟨[e], .running⟩

/-- Sequential composition `a; b`: `b` runs only if control leaves `a`. -/
def seq (a b : Outcome) : Outcome :=
  match a.status with
  | .running => ⟨a.events ++ b.events, b.status⟩
  | _ => a

/-- The member call `l->...` recorded as `e`: undefined behaviour when the
pointer `l` is null. -/
def arrow (env : Env) (l : LoggerRef) (e : Event) : Outcome :=
  if env.non_null l then emit e else ⟨[.null_deref l], .undefined⟩

/-! ## Strings -/

/-- The terminator of a C string. -/
def NUL : Char := Char.ofNat 0

/-- Opening brace of a replacement field. -/
def lbrace : Char := Char.ofNat 123

/-- Closing brace of a replacement field. -/
def rbrace : Char := Char.ofNat 125

/-- The C string found at the start of a buffer: the characters before the
first terminator. -/
def c_str (buf : String) : String := String.mk (buf.toList.takeWhile (fun c => c ≠ NUL))

/-- Whether a format string has a replacement field that is not the empty
field `{}`: an opening brace, not part of a doubled brace, that is followed
by a character other than a brace. -/
def has_other_field : List Char → Bool
  | [] => false
  | [_] => false
  | c :: d :: rest =>
    if c = lbrace then
      (if d = lbrace ∨ d = rbrace then has_other_field rest else true)
    else if c = rbrace then
      (if d = rbrace then has_other_field rest else has_other_field (d :: rest))
    else has_other_field (d :: rest)

/-- Text that `fmt::format` makes of a format string whose replacement fields
are all empty, and of the rendered arguments; `none` when it throws
`fmt::format_error`. A doubled brace stands for the brace; an empty field is
replaced by the next argument and throws when no argument is left; an
opening brace at the end of the string and a closing brace that is not
doubled throw; arguments left over are ignored. The branch of a field that
is not empty is not reached from `fmt_format`. -/
def fmt_fields : List Char → List String → Option (List Char)
  | [], _ => some []
  | [c], _ => if c = lbrace ∨ c = rbrace then none else some [c]
  | c :: d :: rest, args =>
    if c = lbrace then
      (if d = lbrace then (fmt_fields rest args).map (fun t => lbrace :: t)
      else if d = rbrace then
        match args with
        | [] => none
        | a :: more => (fmt_fields rest more).map (fun t => a.toList ++ t)
      else none)
    else if c = rbrace then
      (if d = rbrace then (fmt_fields rest args).map (fun t => rbrace :: t) else none)
    else (fmt_fields (d :: rest) args).map (fun t => c :: t)

/-- Rendering `fmt::format(fmt, args...)`, `none` when it throws: by
`fmt_fields` when every replacement field is empty, and as the environment
says for a format string with another field. -/
def fmt_format (env : Env) (fmt : String) (args : List String) : Option String :=
  if has_other_field fmt.toList then env.fmt_other_fields fmt args
  else (fmt_fields fmt.toList args).map String.mk

/-- Appending call `fmt::format_to(buf, fmt, args...)`: the buffer it leaves,
`none` when it throws. -/
def format_to (env : Env) (buf : String) (fmt : String) (args : List String) :
    Option String :=
  (fmt_format env fmt args).map (fun t => buf ++ t)

/-! ## Compile-time file name extraction -/

/-- The read `*(p + i)` in the NUL-terminated string with characters `p`:
a character of `p`, the terminator at index `p.length`, nothing beyond. -/
def read (p : List Char) (i : Nat) : Option Char :=
  if i < p.length then p.get? i else if i = p.length then some NUL else none

/-- Function `str_end(str)`, the pointer `str` given by the characters from it
on and its index: the index of the terminator. -/
def str_end : List Char → Nat → Nat
  | [], i => i
  | c :: rest, i => if c ≠ NUL then str_end rest (i + 1) else i

/-- Function `str_slant(str)`, the pointer `str` given by the characters from
it on: whether a slash occurs before the terminator. -/
def str_slant : List Char → Bool
  | [] => false
  | c :: rest => if c = '/' then true else if c ≠ NUL then str_slant rest else false

/-- Function `r_slant(str)` for the pointer `p + i`: the index just after the
nearest slash at or before `i`; `none` when the scan reads outside the
string. -/
def r_slant (p : List Char) : Nat → Option Nat
  | 0 => if read p 0 = some '/' then some 1 else none
  | i + 1 =>
    match read p (i + 1) with
    | none => none
    | some c => if c = '/' then some (i + 2) else r_slant p i

/-- Function `file_name(str)`: the characters from the returned pointer on. -/
def file_name (p : List Char) : Option (List Char) :=
  if str_slant p then (r_slant p (str_end p 0)).map (fun k => p.drop k) else some p

/-- Format string put in front of every message, `LINEOUTPUTFORMAT`. -/
def LINEOUTPUTFORMAT : String := "[\x7b\x7d:\x7b\x7d:\x7b\x7d] "

/-- Arguments of the line header, `LINEOUTPUTARGS`. -/
def LINEOUTPUTARGS (site : CallSite) : List String :=
  [c_str (String.mk ((file_name site.file.toList).getD [])), toString site.line, site.function]

/-! ## Level-gated log statements -/

/-- Level check `LEVELCHECK(mod, lvl)`: `module_level_<mod> <= lvl`. -/
def LEVELCHECK (env : Env) (mod : String) (lvl : level_enum) : Bool :=
  decide ((env.module_level mod).toNat ≤ lvl.toNat)

def LOGTRACEMOD_USING_LOGGER (env : Env) (site : CallSite) (mod : String) (logger : LoggerRef)
    (msg : String) (args : List String) : Outcome :=
  if env.non_null logger && LEVELCHECK env mod .trace then
    arrow env logger (.log logger .trace (LINEOUTPUTFORMAT ++ msg) (LINEOUTPUTARGS site ++ args))
  else skip

def LOGDEBUGMOD_USING_LOGGER (env : Env) (site : CallSite) (mod : String) (logger : LoggerRef)
    (msg : String) (args : List String) : Outcome :=
  if env.non_null logger && LEVELCHECK env mod .debug then
    arrow env logger (.log logger .debug (LINEOUTPUTFORMAT ++ msg) (LINEOUTPUTARGS site ++ args))
  else skip

def LOGINFOMOD_USING_LOGGER (env : Env) (site : CallSite) (mod : String) (logger : LoggerRef)
    (msg : String) (args : List String) : Outcome :=
  if env.non_null logger && LEVELCHECK env mod .info then
    arrow env logger (.log logger .info (LINEOUTPUTFORMAT ++ msg) (LINEOUTPUTARGS site ++ args))
  else skip

def LOGWARNMOD_USING_LOGGER (env : Env) (site : CallSite) (mod : String) (logger : LoggerRef)
    (msg : String) (args : List String) : Outcome :=
  if env.non_null logger && LEVELCHECK env mod .warn then
    arrow env logger (.log logger .warn (LINEOUTPUTFORMAT ++ msg) (LINEOUTPUTARGS site ++ args))
  else skip

def LOGERRORMOD_USING_LOGGER (env : Env) (site : CallSite) (mod : String) (logger : LoggerRef)
    (msg : String) (args : List String) : Outcome :=
  if env.non_null logger && LEVELCHECK env mod .err then
    arrow env logger (.log logger .error (LINEOUTPUTFORMAT ++ msg) (LINEOUTPUTARGS site ++ args))
  else skip

def LOGCRITICALMOD_USING_LOGGER (env : Env) (site : CallSite) (mod : String) (logger : LoggerRef)
    (msg : String) (args : List String) : Outcome :=
  seq
    (if env.non_null .GetCriticalLogger && LEVELCHECK env mod .critical then
      arrow env .GetCriticalLogger
        (.log .GetCriticalLogger .critical (LINEOUTPUTFORMAT ++ msg) (LINEOUTPUTARGS site ++ args))
    else skip)
    (if env.non_null logger && LEVELCHECK env mod .critical then
      arrow env logger (.log logger .critical (LINEOUTPUTFORMAT ++ msg) (LINEOUTPUTARGS site ++ args))
    else skip)

def LOGTRACEMOD (env : Env) (site : CallSite) (mod : String) (msg : String) (args : List String) :
    Outcome :=
  LOGTRACEMOD_USING_LOGGER env site mod .GetLogger msg args

def LOGDEBUGMOD (env : Env) (site : CallSite) (mod : String) (msg : String) (args : List String) :
    Outcome :=
  LOGDEBUGMOD_USING_LOGGER env site mod .GetLogger msg args

def LOGINFOMOD (env : Env) (site : CallSite) (mod : String) (msg : String) (args : List String) :
    Outcome :=
  LOGINFOMOD_USING_LOGGER env site mod .GetLogger msg args

def LOGWARNMOD (env : Env) (site : CallSite) (mod : String) (msg : String) (args : List String) :
    Outcome :=
  LOGWARNMOD_USING_LOGGER env site mod .GetLogger msg args

def LOGERRORMOD (env : Env) (site : CallSite) (mod : String) (msg : String) (args : List String) :
    Outcome :=
  LOGERRORMOD_USING_LOGGER env site mod .GetLogger msg args

def LOGCRITICALMOD (env : Env) (site : CallSite) (mod : String) (msg : String)
    (args : List String) : Outcome :=
  LOGCRITICALMOD_USING_LOGGER env site mod .GetLogger msg args

def LOGCRITICAL (env : Env) (site : CallSite) (msg : String) (args : List String) : Outcome :=
  LOGCRITICALMOD env site "base" msg args

/-! ## Log statements with a custom formatter -/

/-- Custom formatter callback `cb(buf, msg, args...)`: from the buffer, the
message and the rendered arguments to its return value and the buffer it
leaves, `none` when the call exits by an exception. -/
abbrev Formatter := String → String → List String → Option (Bool × String)

/-- Statement `_LOG_WITH_CUSTOM_FORMATTER(lvl, method, mod, logger, is_flush,
formatter, msg, ...)`. Both preprocessor branches of the header have this
body; they differ only in the branch-prediction hint. The argument `msg` is
an expression evaluated inside the guard, for the call of the formatter: it
is given by its value, `none` when its evaluation exits by an exception.
Nothing in the body catches an exception. -/
def _LOG_WITH_CUSTOM_FORMATTER (env : Env) (lvl : level_enum) (method : Method) (mod : String)
    (logger : LoggerRef) (is_flush : Bool) (formatter : Formatter) (msg : Option String)
    (args : List String) : Outcome :=
  if env.non_null logger && LEVELCHECK env mod lvl then
    match msg with
    | none => throw_out
    | some m =>
      seq (emit (.formatter m args))
        (match formatter "" m args with
        | none => throw_out
        | some (true, buf) =>
          (match format_to env buf "\x7b\x7d" [NUL.toString] with
          | none => throw_out
          | some terminated =>
            seq (arrow env logger (.log logger method (c_str terminated) []))
              (if is_flush then arrow env logger (.flush logger) else skip))
        | some (false, _) => skip)
  else skip

def LOGTRACEMOD_FMT_USING_LOGGER (env : Env) (mod : String) (formatter : Formatter)
    (logger : LoggerRef) (msg : Option String) (args : List String) : Outcome :=
  _LOG_WITH_CUSTOM_FORMATTER env .trace .trace mod logger false formatter msg args

def LOGDEBUGMOD_FMT_USING_LOGGER (env : Env) (mod : String) (formatter : Formatter)
    (logger : LoggerRef) (msg : Option String) (args : List String) : Outcome :=
  _LOG_WITH_CUSTOM_FORMATTER env .debug .debug mod logger false formatter msg args

def LOGINFOMOD_FMT_USING_LOGGER (env : Env) (mod : String) (formatter : Formatter)
    (logger : LoggerRef) (msg : Option String) (args : List String) : Outcome :=
  _LOG_WITH_CUSTOM_FORMATTER env .info .info mod logger false formatter msg args

def LOGWARNMOD_FMT_USING_LOGGER (env : Env) (mod : String) (formatter : Formatter)
    (logger : LoggerRef) (msg : Option String) (args : List String) : Outcome :=
  _LOG_WITH_CUSTOM_FORMATTER env .warn .warn mod logger false formatter msg args

def LOGERRORMOD_FMT_USING_LOGGER (env : Env) (mod : String) (formatter : Formatter)
    (logger : LoggerRef) (msg : Option String) (args : List String) : Outcome :=
  _LOG_WITH_CUSTOM_FORMATTER env .err .error mod logger false formatter msg args

def LOGCRITICALMOD_FMT_USING_LOGGER (env : Env) (mod : String) (formatter : Formatter)
    (logger : LoggerRef) (msg : Option String) (args : List String) : Outcome :=
  _LOG_WITH_CUSTOM_FORMATTER env .critical .critical mod logger true formatter msg args

def LOGCRITICALMOD_FMT (env : Env) (mod : String) (formatter : Formatter)
    (msg : Option String) (args : List String) : Outcome :=
  seq (LOGCRITICALMOD_FMT_USING_LOGGER env mod formatter .GetCriticalLogger msg args)
    (LOGCRITICALMOD_FMT_USING_LOGGER env mod formatter .GetLogger msg args)

/-! ## Fatal paths -/

/-- Block `LOGCRITICAL_AND_FLUSH(msg, ...)`: no level check and no null check. -/
def LOGCRITICAL_AND_FLUSH (env : Env) (site : CallSite) (msg : String) (args : List String) :
    Outcome :=
  seq (arrow env .GetCriticalLogger
        (.log .GetCriticalLogger .critical (LINEOUTPUTFORMAT ++ msg) (LINEOUTPUTARGS site ++ args)))
    (seq (arrow env .GetCriticalLogger (.flush .GetCriticalLogger))
      (seq (arrow env .GetLogger
            (.log .GetLogger .critical (LINEOUTPUTFORMAT ++ msg) (LINEOUTPUTARGS site ++ args)))
        (arrow env .GetLogger (.flush .GetLogger))))

/-- Statement `assert(0)` of `<cassert>`: nothing when `NDEBUG` is defined,
otherwise the assertion fails and the process is terminated. -/
def assert_0 (env : Env) : Outcome :=
  if env.NDEBUG then skip else ⟨[.assert_fail], .terminated⟩

/-- Call `sds_logging::log_stack_trace(all_threads)`. The header declares the
function and does not define it: the call is recorded and returns. -/
def log_stack_trace (all_threads : Bool) : Outcome := emit (.log_stack_trace all_threads)

/-- Call `abort()`: it does not return. -/
def abort : Outcome := ⟨[.abort], .terminated⟩

/-- Statements `_ABORT_OR_DUMP(is_log_assert)`. -/
def _ABORT_OR_DUMP (env : Env) (is_log_assert : Bool) : Outcome :=
  seq (assert_0 env)
    (if is_log_assert then
      (if env.crash_handler_installed then log_stack_trace false else skip)
    else abort)

def _LOG_AND_ASSERT (env : Env) (site : CallSite) (is_log_assert : Bool) (msg : String)
    (args : List String) : Outcome :=
  seq (LOGCRITICAL_AND_FLUSH env site msg args) (_ABORT_OR_DUMP env is_log_assert)

def _LOG_AND_ASSERT_FMT (env : Env) (is_log_assert : Bool) (formatter : Formatter)
    (msg : Option String) (args : List String) : Outcome :=
  seq (LOGCRITICALMOD_FMT env "base" formatter msg args) (_ABORT_OR_DUMP env is_log_assert)

def LOGDFATAL (env : Env) (site : CallSite) (msg : String) (args : List String) : Outcome :=
  _LOG_AND_ASSERT env site true msg args

def LOGFATAL (env : Env) (site : CallSite) (msg : String) (args : List String) : Outcome :=
  _LOG_AND_ASSERT env site false msg args

/-! ## Assertions -/

/-- Statement `_GENERIC_ASSERT(is_log_assert, cond, formatter, msg, ...)`, with
`cond` the value the condition evaluates to and `msg` as for
`_LOG_WITH_CUSTOM_FORMATTER`. Both preprocessor branches of the header have
this body. -/
def _GENERIC_ASSERT (env : Env) (is_log_assert : Bool) (cond : Bool) (formatter : Formatter)
    (msg : Option String) (args : List String) : Outcome :=
  seq (emit .eval_cond)
    (if !cond then _LOG_AND_ASSERT_FMT env is_log_assert formatter msg args else skip)

/-- Operand of a comparing assertion: an integer or `nullptr`. -/
inductive Value where
  | int (i : Int)
  | nullptr
  deriving DecidableEq, Repr

/-- Number an operand is compared as. -/
def Value.toInt : Value → Int
  | .int i => i
  | .nullptr => 0

/-- Text an operand is rendered as. -/
def Value.render : Value → String
  | .int i => toString i
  | .nullptr => "0x0"

/-- Comparison operator tokens handed to the comparing assertions. -/
inductive CmpOp where
  | eq
  | ne
  | le
  | lt
  | ge
  | gt
  deriving DecidableEq, Repr

/-- Stringized operator, `#cmp`. -/
def CmpOp.text : CmpOp → String
  | .eq => "=="
  | .ne => "!="
  | .le => "<="
  | .lt => "<"
  | .ge => ">="
  | .gt => ">"

/-- Value of `((val1)cmp(val2))`. -/
def CmpOp.eval (cmp : CmpOp) (val1 val2 : Value) : Bool :=
  match cmp with
  | .eq => decide (val1.toInt = val2.toInt)
  | .ne => decide (val1.toInt ≠ val2.toInt)
  | .le => decide (val1.toInt ≤ val2.toInt)
  | .lt => decide (val1.toInt < val2.toInt)
  | .ge => decide (val1.toInt ≥ val2.toInt)
  | .gt => decide (val1.toInt > val2.toInt)

/-- Function `format_log_msg(fmt, args...)`, and the argument-less overload
`format_log_msg()` whose value the environment supplies; `none` when the
call of `fmt::format_to` in it throws. -/
def format_log_msg (env : Env) : List String → Option String
  | [] => some env.empty_log_msg
  | fmt :: args => format_to env "" fmt args

/-- Expression `_FMT_LOG_MSG(...)`, `sds_logging::format_log_msg(...).c_str()`:
its value, `none` when its evaluation exits by an exception. -/
def _FMT_LOG_MSG (env : Env) (va_args : List String) : Option String :=
  (format_log_msg env va_args).map c_str

/-- Function `_cmp_assert_with_msg(buf, msg, val1, op, val2, args...)`: the
buffer it leaves, `none` when one of its two calls of `fmt::format_to`
throws; it has no instance for fewer than three arguments after `msg`. -/
def _cmp_assert_with_msg (env : Env) (buf : String) (msg : String) :
    List String → Option String
  | val1 :: op :: val2 :: args =>
    (format_to env buf
      "******************** Assertion failure: =====> Expected \x27\x7b\x7d\x27 to be \x7b\x7d to \x27\x7b\x7d\x27 "
      [val1, op, val2]).bind (fun b => format_to env b msg args)
  | _ => some buf

/-- Formatter written inline by `RELEASE_ASSERT` and `LOGMSG_ASSERT`: the call
`fmt::format_to(buf, msg, args...)` and then `return true`. -/
def plain_formatter (env : Env) : Formatter :=
  fun buf msg args => (format_to env buf msg args).map (fun b => (true, b))

/-- Formatter written inline by `RELEASE_ASSERT_CMP_DEFAULT_FMT` and
`LOGMSG_ASSERT_CMP_DEFAULT_FMT`: the call of `_cmp_assert_with_msg` and then
`return true`. -/
def cmp_default_formatter (env : Env) : Formatter :=
  fun buf msg args => (_cmp_assert_with_msg env buf msg args).map (fun b => (true, b))

/-! ### Release-fatal assertions (`is_log_assert` is 0) -/

def RELEASE_ASSERT (env : Env) (cond : Bool) (m : String) (args : List String) : Outcome :=
  _GENERIC_ASSERT env false cond (plain_formatter env) (some m) args

def RELEASE_ASSERT_FMT (env : Env) (cond : Bool) (formatter : Formatter) (msg : String)
    (args : List String) : Outcome :=
  _GENERIC_ASSERT env false cond formatter (some msg) args

def RELEASE_ASSERT_CMP (env : Env) (val1 : Value) (cmp : CmpOp) (val2 : Value)
    (formatter : Formatter) (rest : List String) : Outcome :=
  _GENERIC_ASSERT env false (cmp.eval val1 val2) formatter (_FMT_LOG_MSG env rest)
    [val1.render, cmp.text, val2.render]

def RELEASE_ASSERT_CMP_DEFAULT_FMT (env : Env) (val1 : Value) (cmp : CmpOp) (val2 : Value)
    (rest : List String) : Outcome :=
  RELEASE_ASSERT_CMP env val1 cmp val2 (cmp_default_formatter env) rest

def RELEASE_ASSERT_EQ (env : Env) (val1 val2 : Value) (rest : List String) : Outcome :=
  RELEASE_ASSERT_CMP_DEFAULT_FMT env val1 .eq val2 rest

def RELEASE_ASSERT_NE (env : Env) (val1 val2 : Value) (rest : List String) : Outcome :=
  RELEASE_ASSERT_CMP_DEFAULT_FMT env val1 .ne val2 rest

def RELEASE_ASSERT_LE (env : Env) (val1 val2 : Value) (rest : List String) : Outcome :=
  RELEASE_ASSERT_CMP_DEFAULT_FMT env val1 .le val2 rest

def RELEASE_ASSERT_LT (env : Env) (val1 val2 : Value) (rest : List String) : Outcome :=
  RELEASE_ASSERT_CMP_DEFAULT_FMT env val1 .lt val2 rest

def RELEASE_ASSERT_GE (env : Env) (val1 val2 : Value) (rest : List String) : Outcome :=
  RELEASE_ASSERT_CMP_DEFAULT_FMT env val1 .ge val2 rest

def RELEASE_ASSERT_GT (env : Env) (val1 val2 : Value) (rest : List String) : Outcome :=
  RELEASE_ASSERT_CMP_DEFAULT_FMT env val1 .gt val2 rest

def RELEASE_ASSERT_NOTNULL (env : Env) (val1 : Value) (rest : List String) : Outcome :=
  RELEASE_ASSERT_CMP_DEFAULT_FMT env val1 .ne .nullptr rest

/-! ### Debug-fatal assertions (`is_log_assert` is 1) -/

def LOGMSG_ASSERT (env : Env) (cond : Bool) (m : String) (args : List String) : Outcome :=
  _GENERIC_ASSERT env true cond (plain_formatter env) (some m) args

def LOGMSG_ASSERT_FMT (env : Env) (cond : Bool) (formatter : Formatter) (msg : String)
    (args : List String) : Outcome :=
  _GENERIC_ASSERT env true cond formatter (some msg) args

def LOGMSG_ASSERT_CMP (env : Env) (val1 : Value) (cmp : CmpOp) (val2 : Value)
    (formatter : Formatter) (rest : List String) : Outcome :=
  _GENERIC_ASSERT env true (cmp.eval val1 val2) formatter ((format_log_msg env rest).map c_str)
    [val1.render, cmp.text, val2.render]

def LOGMSG_ASSERT_CMP_DEFAULT_FMT (env : Env) (val1 : Value) (cmp : CmpOp) (val2 : Value)
    (rest : List String) : Outcome :=
  LOGMSG_ASSERT_CMP env val1 cmp val2 (cmp_default_formatter env) rest

def LOGMSG_ASSERT_EQ (env : Env) (val1 val2 : Value) (rest : List String) : Outcome :=
  LOGMSG_ASSERT_CMP_DEFAULT_FMT env val1 .eq val2 rest

def LOGMSG_ASSERT_NE (env : Env) (val1 val2 : Value) (rest : List String) : Outcome :=
  LOGMSG_ASSERT_CMP_DEFAULT_FMT env val1 .ne val2 rest

def LOGMSG_ASSERT_LE (env : Env) (val1 val2 : Value) (rest : List String) : Outcome :=
  LOGMSG_ASSERT_CMP_DEFAULT_FMT env val1 .le val2 rest

def LOGMSG_ASSERT_LT (env : Env) (val1 val2 : Value) (rest : List String) : Outcome :=
  LOGMSG_ASSERT_CMP_DEFAULT_FMT env val1 .lt val2 rest

/-- Statement `LOGMSG_ASSERT_GE(val1, val2, ...)`. The header expands it to
`LOGMSG_ASSERT_CMP_DEFAULT_FMT(val1, >= val2, ##__VA_ARGS__)`, with no comma
between the operator and `val2`: the operator parameter receives `>= val2`
and the `val2` parameter the first of the remaining arguments. With no
remaining argument the call has too few arguments, and otherwise the
condition reads `((val1)>= val2(first))`, a call of an integer operand: no
statement results, which `none` records. -/
def LOGMSG_ASSERT_GE (_env : Env) (_val1 _val2 : Value) (_rest : List String) : Option Outcome :=
  none

def LOGMSG_ASSERT_GT (env : Env) (val1 val2 : Value) (rest : List String) : Outcome :=
  LOGMSG_ASSERT_CMP_DEFAULT_FMT env val1 .gt val2 rest

def LOGMSG_ASSERT_NOTNULL (env : Env) (val1 : Value) (rest : List String) : Outcome :=
  LOGMSG_ASSERT_CMP_DEFAULT_FMT env val1 .ne .nullptr rest

/-! ### Debug-only assertions: the release-fatal ones without `NDEBUG`, nothing with it -/

/-- Arguments of one assertion call, by the suffix of the name of the
assertion: none, `_FMT`, `_CMP`, `_EQ`, .., `_NOTNULL`. A `_CMP_DEFAULT_FMT`
call is the `_CMP` call with `cmp_default_formatter`. -/
inductive AssertCall where
  | plain (cond : Bool) (m : String) (args : List String)
  | fmt (cond : Bool) (formatter : Formatter) (msg : String) (args : List String)
  | cmp (val1 : Value) (op : CmpOp) (val2 : Value) (formatter : Formatter) (rest : List String)
  | EQ (val1 val2 : Value) (rest : List String)
  | NE (val1 val2 : Value) (rest : List String)
  | LE (val1 val2 : Value) (rest : List String)
  | LT (val1 val2 : Value) (rest : List String)
  | GE (val1 val2 : Value) (rest : List String)
  | GT (val1 val2 : Value) (rest : List String)
  | NOTNULL (val1 : Value) (rest : List String)

/-- Condition an assertion call checks. -/
def AssertCall.cond : AssertCall → Bool
  | .plain cond _ _ => cond
  | .fmt cond _ _ _ => cond
  | .cmp val1 op val2 _ _ => op.eval val1 val2
  | .EQ val1 val2 _ => CmpOp.eq.eval val1 val2
  | .NE val1 val2 _ => CmpOp.ne.eval val1 val2
  | .LE val1 val2 _ => CmpOp.le.eval val1 val2
  | .LT val1 val2 _ => CmpOp.lt.eval val1 val2
  | .GE val1 val2 _ => CmpOp.ge.eval val1 val2
  | .GT val1 val2 _ => CmpOp.gt.eval val1 val2
  | .NOTNULL val1 _ => CmpOp.ne.eval val1 .nullptr

/-- Formatter an assertion call hands to `_GENERIC_ASSERT`. -/
def AssertCall.formatter (env : Env) : AssertCall → Formatter
  | .plain _ _ _ => plain_formatter env
  | .fmt _ formatter _ _ => formatter
  | .cmp _ _ _ formatter _ => formatter
  | _ => cmp_default_formatter env

/-- Message an assertion call hands to `_GENERIC_ASSERT`: its value, `none`
when its evaluation exits by an exception. -/
def AssertCall.msg (env : Env) : AssertCall → Option String
  | .plain _ m _ => some m
  | .fmt _ _ msg _ => some msg
  | .cmp _ _ _ _ rest => _FMT_LOG_MSG env rest
  | .EQ _ _ rest => _FMT_LOG_MSG env rest
  | .NE _ _ rest => _FMT_LOG_MSG env rest
  | .LE _ _ rest => _FMT_LOG_MSG env rest
  | .LT _ _ rest => _FMT_LOG_MSG env rest
  | .GE _ _ rest => _FMT_LOG_MSG env rest
  | .GT _ _ rest => _FMT_LOG_MSG env rest
  | .NOTNULL _ rest => _FMT_LOG_MSG env rest

/-- Arguments after the message an assertion call hands to `_GENERIC_ASSERT`. -/
def AssertCall.args : AssertCall → List String
  | .plain _ _ args => args
  | .fmt _ _ _ args => args
  | .cmp val1 op val2 _ _ => [val1.render, op.text, val2.render]
  | .EQ val1 val2 _ => [val1.render, CmpOp.eq.text, val2.render]
  | .NE val1 val2 _ => [val1.render, CmpOp.ne.text, val2.render]
  | .LE val1 val2 _ => [val1.render, CmpOp.le.text, val2.render]
  | .LT val1 val2 _ => [val1.render, CmpOp.lt.text, val2.render]
  | .GE val1 val2 _ => [val1.render, CmpOp.ge.text, val2.render]
  | .GT val1 val2 _ => [val1.render, CmpOp.gt.text, val2.render]
  | .NOTNULL val1 _ => [val1.render, CmpOp.ne.text, Value.nullptr.render]

/-- What the formatter of an assertion call does on its message and
arguments: `none` when the evaluation of the message or the call of the
formatter exits by an exception. -/
def AssertCall.formatter_outcome (env : Env) (call : AssertCall) : Option (Bool × String) :=
  (call.msg env).bind (fun m => call.formatter env "" m call.args)

/-- Whether the formatter of an assertion call returns true on its message
and arguments. -/
def AssertCall.formatter_result (env : Env) (call : AssertCall) : Bool :=
  match call.formatter_outcome env with
  | some r => r.1
  | none => false

/-- Whether the logging statement of a failed assertion makes a formatter
call: the level of module `base` passes the check for `critical` and one of
the critical and the default logger is non-null. -/
def formatter_called (env : Env) : Bool :=
  LEVELCHECK env "base" .critical &&
    (env.non_null .GetCriticalLogger || env.non_null .GetLogger)

/-- Whether no exception leaves the logging statement of a failed assertion
call: it makes no formatter call, or the message evaluates and the formatter
returns. -/
def AssertCall.logging_returns (env : Env) (call : AssertCall) : Bool :=
  !formatter_called env || (call.formatter_outcome env).isSome

/-- The call written with the `RELEASE_ASSERT` family. -/
def AssertCall.RELEASE (env : Env) : AssertCall → Outcome
  | .plain cond m args => RELEASE_ASSERT env cond m args
  | .fmt cond formatter msg args => RELEASE_ASSERT_FMT env cond formatter msg args
  | .cmp val1 op val2 formatter rest => RELEASE_ASSERT_CMP env val1 op val2 formatter rest
  | .EQ val1 val2 rest => RELEASE_ASSERT_EQ env val1 val2 rest
  | .NE val1 val2 rest => RELEASE_ASSERT_NE env val1 val2 rest
  | .LE val1 val2 rest => RELEASE_ASSERT_LE env val1 val2 rest
  | .LT val1 val2 rest => RELEASE_ASSERT_LT env val1 val2 rest
  | .GE val1 val2 rest => RELEASE_ASSERT_GE env val1 val2 rest
  | .GT val1 val2 rest => RELEASE_ASSERT_GT env val1 val2 rest
  | .NOTNULL val1 rest => RELEASE_ASSERT_NOTNULL env val1 rest

/-- The call written with the `LOGMSG_ASSERT` family; `none` where no
statement results. -/
def AssertCall.LOGMSG (env : Env) : AssertCall → Option Outcome
  | .plain cond m args => some (LOGMSG_ASSERT env cond m args)
  | .fmt cond formatter msg args => some (LOGMSG_ASSERT_FMT env cond formatter msg args)
  | .cmp val1 op val2 formatter rest => some (LOGMSG_ASSERT_CMP env val1 op val2 formatter rest)
  | .EQ val1 val2 rest => some (LOGMSG_ASSERT_EQ env val1 val2 rest)
  | .NE val1 val2 rest => some (LOGMSG_ASSERT_NE env val1 val2 rest)
  | .LE val1 val2 rest => some (LOGMSG_ASSERT_LE env val1 val2 rest)
  | .LT val1 val2 rest => some (LOGMSG_ASSERT_LT env val1 val2 rest)
  | .GE val1 val2 rest => LOGMSG_ASSERT_GE env val1 val2 rest
  | .GT val1 val2 rest => some (LOGMSG_ASSERT_GT env val1 val2 rest)
  | .NOTNULL val1 rest => some (LOGMSG_ASSERT_NOTNULL env val1 rest)

/-- Static member `LoggerThreadContext::_logger_thread_set`: an
`std::unordered_set` of context pointers, kept as the list of its elements;
a pointer is the number of its address. The mutex both operations hold is
not part of the sequential model. -/
abbrev logger_thread_set := List Nat

/-- Function `LoggerThreadContext::add_logger_thread(ctx)`:
`_logger_thread_set.insert(ctx)`, which leaves a set holding `ctx` as it is. -/
def add_logger_thread (set : logger_thread_set) (ctx : Nat) : logger_thread_set :=
  if ctx ∈ set then set else ctx :: set

/-- Function `LoggerThreadContext::remove_logger_thread(ctx)`:
`_logger_thread_set.erase(ctx)`. -/
def remove_logger_thread (set : logger_thread_set) (ctx : Nat) : logger_thread_set :=
  set.erase ctx

/-- One registry call. -/
inductive RegistryCall where
  | add (ctx : Nat)
  | remove (ctx : Nat)
  deriving DecidableEq, Repr

/-- Effect of one registry call. -/
def RegistryCall.apply (set : logger_thread_set) : RegistryCall → logger_thread_set
  | .add ctx => add_logger_thread set ctx
  | .remove ctx => remove_logger_thread set ctx

/-- Registry after a sequence of calls, the first call first. -/
def run_registry (set : logger_thread_set) (calls : List RegistryCall) : logger_thread_set :=
  calls.foldl RegistryCall.apply set

/-- Whether every removal in a sequence of registry calls comes after the
addition of the same context; `added` holds the contexts added before the
sequence. -/
def removes_follow_adds : List RegistryCall → List Nat → Bool
  | [], _ => true
  | .add ctx :: rest, added => removes_follow_adds rest (ctx :: added)
  | .remove ctx :: rest, added => added.contains ctx && removes_follow_adds rest added

/-! ## Observations on outcomes -/

/-- Steps of the logging part of a statement: the evaluation of a condition, a
formatter call, a record, a flush. -/
def Event.is_logging_step : Event → Bool
  | .log _ _ _ _ => true
  | .flush _ => true
  | .formatter _ _ => true
  | .eval_cond => true
  | _ => false

/-- Whether every critical record of the steps is followed, later in the
steps, by a flush of the logger that received it. -/
def every_critical_flushed : List Event → Bool
  | [] => true
  | .log l .critical _ _ :: rest => rest.contains (.flush l) && every_critical_flushed rest
  | _ :: rest => every_critical_flushed rest

/-- Whether the steps hold a critical record that is followed, later in the
steps, by a flush of the logger that received it. -/
def has_flushed_critical : List Event → Bool
  | [] => false
  | .log l .critical _ _ :: rest => rest.contains (.flush l) || has_flushed_critical rest
  | _ :: rest => has_flushed_critical rest

/-- The gated log statement of a logger method: `LOGTRACEMOD_USING_LOGGER`, ..,
`LOGCRITICALMOD_USING_LOGGER`. -/
def LOGMOD_USING_LOGGER_of : Method → Env → CallSite → String → LoggerRef → String →
    List String → Outcome
  | .trace => LOGTRACEMOD_USING_LOGGER
  | .debug => LOGDEBUGMOD_USING_LOGGER
  | .info => LOGINFOMOD_USING_LOGGER
  | .warn => LOGWARNMOD_USING_LOGGER
  | .error => LOGERRORMOD_USING_LOGGER
  | .critical => LOGCRITICALMOD_USING_LOGGER

/-- The gated log statement of a logger method on the default logger:
`LOGTRACEMOD`, .., `LOGCRITICALMOD`. -/
def LOGMOD_of : Method → Env → CallSite → String → String → List String → Outcome
  | .trace => LOGTRACEMOD
  | .debug => LOGDEBUGMOD
  | .info => LOGINFOMOD
  | .warn => LOGWARNMOD
  | .error => LOGERRORMOD
  | .critical => LOGCRITICALMOD

/-- The log statement with a custom formatter of a logger method:
`LOGTRACEMOD_FMT_USING_LOGGER`, .., `LOGCRITICALMOD_FMT_USING_LOGGER`. -/
def LOGMOD_FMT_USING_LOGGER_of : Method → Env → String → Formatter → LoggerRef →
    Option String → List String → Outcome
  | .trace => LOGTRACEMOD_FMT_USING_LOGGER
  | .debug => LOGDEBUGMOD_FMT_USING_LOGGER
  | .info => LOGINFOMOD_FMT_USING_LOGGER
  | .warn => LOGWARNMOD_FMT_USING_LOGGER
  | .error => LOGERRORMOD_FMT_USING_LOGGER
  | .critical => LOGCRITICALMOD_FMT_USING_LOGGER

/-! ## Concrete inputs

No format string of the inputs below has a field with an index, a name or a
specification, so `fmt_other_fields` is never asked; it is set to throw. -/

/-- A release build with every module at `info`, every logger present and the
crash handler installed. -/
def env_release : Env :=
  ⟨true, fun _ => .info, fun _ => true, true, "", fun _ _ => none⟩

/-- A build without `NDEBUG`, otherwise as `env_release`. -/
def env_debug : Env :=
  ⟨false, fun _ => .info, fun _ => true, true, "", fun _ _ => none⟩

/-- A release build whose module levels are all `off`, otherwise as
`env_release`. -/
def env_off : Env :=
  ⟨true, fun _ => .off, fun _ => true, true, "", fun _ _ => none⟩

/-- A release build without crash handler, otherwise as `env_release`. -/
def env_no_handler : Env :=
  ⟨true, fun _ => .info, fun _ => true, false, "", fun _ _ => none⟩

/-- A release build in which every logger pointer is null, otherwise as
`env_release`. -/
def env_null_loggers : Env :=
  ⟨true, fun _ => .info, fun _ => false, true, "", fun _ _ => none⟩

/-- A call site in this header. -/
def site_here : CallSite := ⟨"/a/b/logging.h", 42, "main"⟩

/-- A formatter that declines to format. -/
def declining_formatter : Formatter := fun buf _ _ => some (false, buf)

/-- Statement `SDS_LOG_LEVEL(mod, lvl)`: the assignment
`module_level_<mod> = (lvl);`. -/
def SDS_LOG_LEVEL (env : Env) (mod : String) (lvl : level_enum) : Env :=
  { env with module_level := fun m => if m = mod then lvl else env.module_level m }

/-- Definition `MODLEVELDEF(r, l, module)`: the variable `module_level_<module>`
with the initial value `l`, as the pair of the module name and the value. -/
def MODLEVELDEF (l : level_enum) (module : String) : String × level_enum := (module, l)

/-- Element `MOD_LEVEL_STRING(r, _, module)` of the initializer of
`glob_enabled_mods`: the stringized module name. -/
def MOD_LEVEL_STRING (module : String) : String := module

/-- The objects a use of `SDS_LOGGING_INIT` defines: the level variables in
the order of their definition, the two global logger pointers (`true` for a
non-null pointer), the list `glob_enabled_mods` and the registry of logger
thread contexts. -/
structure LoggingGlobals where
  module_level : List (String × level_enum)
  glob_spdlog_logger : Bool
  glob_critical_logger : Bool
  glob_enabled_mods : List String
  _logger_thread_set : logger_thread_set

/-- Definitions `SDS_LOGGING_INIT(...)` for the module names `mods`: one
`MODLEVELDEF` with `info` for each element of the sequence made of `base`
pushed in front of the names, and `glob_enabled_mods` initialized with
`MOD_LEVEL_STRING` of `base` followed by `MOD_LEVEL_STRING` of each name;
the logger pointers and the registry are default-constructed. -/
def SDS_LOGGING_INIT (mods : List String) : LoggingGlobals :=
  { module_level := ("base" :: mods).map (MODLEVELDEF .info)
    glob_spdlog_logger := false
    glob_critical_logger := false
    glob_enabled_mods := MOD_LEVEL_STRING "base" :: mods.map MOD_LEVEL_STRING
    _logger_thread_set := [] }

/-- Modelled from the spec: `SetModuleLogLevel(module_name, level)`, which the
header declares and does not define. Section 4.1: `set_level(module, level)`
overwrites the stored severity for `module`; it is a no-op if `module` is
unknown, and unknown modules are never created by the call. The table is the
list of level variables. -/
def SetModuleLogLevel (table : List (String × level_enum)) (module_name : String)
    (level : level_enum) : List (String × level_enum) :=
  table.map (fun v => if v.1 = module_name then (v.1, level) else v)

/-- Modelled from the spec: `GetModuleLogLevel(module_name)`, which the header
declares and does not define. Section 4.1: `get_level(module)` returns the
stored severity, or the default `info` if the module is unknown. -/
def GetModuleLogLevel (table : List (String × level_enum)) (module_name : String) :
    level_enum :=
  match table.find? (fun v => v.1 = module_name) with
  | some v => v.2
  | none => .info

/-! ## Reads made by the file name helpers -/

/-- Indices of the reads `*str` that the evaluation of `str_end(str)` makes, in
order, the pointer `str` given as for `str_end`. -/
def str_end_reads : List Char → Nat → List Int
  | [], i => [(i : Int)]
  | c :: rest, i => (i : Int) :: (if c ≠ NUL then str_end_reads rest (i + 1) else [])

/-- Indices of the reads `*str` that the evaluation of `str_slant(str)` makes,
in order, the pointer `str` given by the characters from it on and its
index. -/
def str_slant_reads : List Char → Nat → List Int
  | [], i => [(i : Int)]
  | c :: rest, i =>
    (i : Int) :: (if c = '/' then [] else if c ≠ NUL then str_slant_reads rest (i + 1) else [])

/-- Indices of the reads `*str` that the evaluation of `r_slant(str)` makes for
the pointer `p + i`, in order, up to and including the first read outside the
string: index `-1` after a scan that found no slash down to index `0`. -/
def r_slant_reads (p : List Char) : Nat → List Int
  | 0 => (0 : Int) :: (if read p 0 = some '/' then [] else [-1])
  | i + 1 =>
    ((i : Int) + 1) ::
      (match read p (i + 1) with
      | none => []
      | some c => if c = '/' then [] else r_slant_reads p i)

/-- Indices of the reads that the evaluation of `file_name(str)` makes, in
order: those of `str_slant(str)` and, when it is true, those of
`str_end(str)` and of `r_slant` on its result. -/
def file_name_reads (p : List Char) : List Int :=
  str_slant_reads p 0 ++
    (if str_slant p then str_end_reads p 0 ++ r_slant_reads p (str_end p 0) else [])

/-! ## Argument lists of the comparing assertions -/

/-- Flavours of the comparing assertions, the suffix of their names. -/
inductive CmpFlavour where
  | EQ
  | NE
  | LE
  | LT
  | GE
  | GT
  | NOTNULL
  deriving DecidableEq, Repr

/-- Arguments, as the texts between the commas, that
`RELEASE_ASSERT_<flavour>(val1, val2, ...)` hands to
`RELEASE_ASSERT_CMP_DEFAULT_FMT`; `RELEASE_ASSERT_NOTNULL(val1, ...)` has no
parameter `val2`. -/
def RELEASE_ASSERT_flavour_args : CmpFlavour → String → String → List String → List String
  | .EQ, val1, val2, va_args => val1 :: "==" :: val2 :: va_args
  | .NE, val1, val2, va_args => val1 :: "!=" :: val2 :: va_args
  | .LE, val1, val2, va_args => val1 :: "<=" :: val2 :: va_args
  | .LT, val1, val2, va_args => val1 :: "<" :: val2 :: va_args
  | .GE, val1, val2, va_args => val1 :: ">=" :: val2 :: va_args
  | .GT, val1, val2, va_args => val1 :: ">" :: val2 :: va_args
  | .NOTNULL, val1, _, va_args => val1 :: "!=" :: "nullptr" :: va_args

/-- Arguments, as the texts between the commas, that
`LOGMSG_ASSERT_<flavour>(val1, val2, ...)` hands to
`LOGMSG_ASSERT_CMP_DEFAULT_FMT`; `LOGMSG_ASSERT_NOTNULL(val1, ...)` has no
parameter `val2`. The replacement list of `LOGMSG_ASSERT_GE` reads
`(val1, >= val2, ##__VA_ARGS__)`. -/
def LOGMSG_ASSERT_flavour_args : CmpFlavour → String → String → List String → List String
  | .EQ, val1, val2, va_args => val1 :: "==" :: val2 :: va_args
  | .NE, val1, val2, va_args => val1 :: "!=" :: val2 :: va_args
  | .LE, val1, val2, va_args => val1 :: "<=" :: val2 :: va_args
  | .LT, val1, val2, va_args => val1 :: "<" :: val2 :: va_args
  | .GE, val1, val2, va_args => val1 :: (">= " ++ val2) :: va_args
  | .GT, val1, val2, va_args => val1 :: ">" :: val2 :: va_args
  | .NOTNULL, val1, _, va_args => val1 :: "!=" :: "nullptr" :: va_args

/-- Binding of an argument list to the parameters `(val1, cmp, val2, ...)` of
`RELEASE_ASSERT_CMP_DEFAULT_FMT` and `LOGMSG_ASSERT_CMP_DEFAULT_FMT`; `none`
for fewer than three arguments. -/
def CMP_DEFAULT_FMT_params : List String → Option (String × String × String × List String)
  | val1 :: cmp :: val2 :: va_args => some (val1, cmp, val2, va_args)
  | _ => none

/-- Text of the condition `((val1)cmp(val2))` that `RELEASE_ASSERT_CMP` and
`LOGMSG_ASSERT_CMP` check. -/
def CMP_condition_text (val1 cmp val2 : String) : String :=
  "((" ++ val1 ++ ")" ++ cmp ++ "(" ++ val2 ++ "))"

/-- Condition text a call of a flavour ends up checking; `none` when the
argument list does not fit the parameters. -/
def checked_condition (args : List String) : Option String :=
  (CMP_DEFAULT_FMT_params args).map (fun b => CMP_condition_text b.1 b.2.1 b.2.2.1)

/-! ## Lemmas on the statements -/

/-- The record that the custom formatter statement hands to the logger when
the formatter returns: the buffer after the callback and the appended
terminator, read as a C string. -/
def formatted_record (env : Env) (formatter : Formatter) (msg : String) (args : List String) :
    String :=
  match formatter "" msg args with
  | some r =>
    (match format_to env r.2 "\x7b\x7d" [NUL.toString] with
    | some terminated => c_str terminated
    | none => "")
  | none => ""

/-- Outcome of one expansion of the custom formatter statement whose guard
holds: nothing and an exception when the message does not evaluate; the
formatter call and an exception when the formatter does not return; the
formatter call, the record and, if asked for, the flush when the formatter
returns true; the formatter call alone when it returns false. -/
def guarded_formatter_outcome (env : Env) (logger : LoggerRef) (method : Method)
    (is_flush : Bool) (formatter : Formatter) (msg : Option String) (args : List String) :
    Outcome :=
  match msg with
  | none => ⟨[], .thrown⟩
  | some m =>
    match formatter "" m args with
    | none => ⟨[.formatter m args], .thrown⟩
    | some (true, _) =>
      ⟨.formatter m args :: .log logger method (formatted_record env formatter m args) [] ::
        (if is_flush then [.flush logger] else []), .running⟩
    | some (false, _) => ⟨[.formatter m args], .running⟩

/-! ## Lemmas on formatting -/

theorem fmt_fields_field (rest : List Char) (a : String) (more : List String) :
    fmt_fields (lbrace :: rbrace :: rest) (a :: more) =
      (fmt_fields rest more).map (fun t => a.toList ++ t) := by
  have h : ¬ rbrace = lbrace := by decide
  simp [fmt_fields, h]

theorem format_to_terminator (env : Env) (buf : String) :
    format_to env buf "\x7b\x7d" [NUL.toString] = some (buf ++ NUL.toString) := by
  have hs : "\x7b\x7d".toList = lbrace :: rbrace :: [] := by decide
  have hno : has_other_field "\x7b\x7d".toList = false := by decide
  unfold format_to fmt_format
  rw [hno, if_neg Bool.false_ne_true, hs, fmt_fields_field]
  simp only [fmt_fields, Option.map_some', List.append_nil]
  rfl

theorem takeWhile_append_stop (l : List Char) :
    (l ++ [NUL]).takeWhile (fun c => c ≠ NUL) = l.takeWhile (fun c => c ≠ NUL) := by
  induction l with
  | nil => simp [List.takeWhile]
  | cons c rest ih =>
    by_cases hc : c = NUL
    · simp [List.takeWhile, hc]
    · simp only [List.cons_append, List.takeWhile_cons, hc, ne_eq, not_false_eq_true,
        decide_True, if_true, ih]

theorem c_str_terminated (buf : String) : c_str (buf ++ NUL.toString) = c_str buf := by
  unfold c_str
  have hl : (buf ++ NUL.toString).toList = buf.toList ++ [NUL] := by
    simp [String.toList, String.data_append, Char.toString, String.singleton]
  rw [hl, takeWhile_append_stop]

theorem formatted_record_eq (env : Env) (formatter : Formatter) (msg : String)
    (args : List String) (b : Bool) (buf : String) (h : formatter "" msg args = some (b, buf)) :
    formatted_record env formatter msg args = c_str buf := by
  unfold formatted_record
  rw [h]
  simp only [format_to_terminator, c_str_terminated]

/-! ## Lemmas on the statements -/

theorem seq_of_running (a b : Outcome) (h : a.status = .running) :
    seq a b = ⟨a.events ++ b.events, b.status⟩ := by
  unfold seq
  rw [h]

theorem seq_of_thrown (a b : Outcome) (h : a.status = .thrown) : seq a b = a := by
  unfold seq
  rw [h]

theorem custom_formatter_eq (env : Env) (lvl : level_enum) (method : Method) (mod : String)
    (logger : LoggerRef) (is_flush : Bool) (formatter : Formatter) (msg : Option String)
    (args : List String) :
    _LOG_WITH_CUSTOM_FORMATTER env lvl method mod logger is_flush formatter msg args =
      if env.non_null logger && LEVELCHECK env mod lvl then
        guarded_formatter_outcome env logger method is_flush formatter msg args
      else ⟨[], .running⟩ := by
  unfold _LOG_WITH_CUSTOM_FORMATTER guarded_formatter_outcome
  cases h1 : env.non_null logger
  · simp [skip]
  · cases h2 : LEVELCHECK env mod lvl
    · simp [skip]
    · cases msg with
      | none => simp [throw_out]
      | some m =>
        cases hf : formatter "" m args with
        | none => simp [hf, seq, emit, throw_out]
        | some r =>
          obtain ⟨b, buf⟩ := r
          cases b
          · simp [hf, seq, emit, skip]
          · have hrec := formatted_record_eq env formatter m args true buf hf
            cases is_flush <;>
              simp [hf, seq, emit, skip, arrow, h1, format_to_terminator, c_str_terminated,
                hrec]

theorem critical_fmt_using_logger_eq (env : Env) (mod : String) (formatter : Formatter)
    (logger : LoggerRef) (msg : Option String) (args : List String) :
    LOGCRITICALMOD_FMT_USING_LOGGER env mod formatter logger msg args =
      if env.non_null logger && LEVELCHECK env mod .critical then
        guarded_formatter_outcome env logger .critical true formatter msg args
      else ⟨[], .running⟩ := by
  unfold LOGCRITICALMOD_FMT_USING_LOGGER
  rw [custom_formatter_eq]

theorem guarded_formatter_logging_steps (env : Env) (logger : LoggerRef) (method : Method)
    (is_flush : Bool) (formatter : Formatter) (msg : Option String) (args : List String) :
    ∀ e ∈ (guarded_formatter_outcome env logger method is_flush formatter msg args).events,
      e.is_logging_step = true := by
  intro e he
  unfold guarded_formatter_outcome at he
  cases msg with
  | none => simp at he
  | some m =>
    cases hf : formatter "" m args with
    | none =>
      simp [hf] at he
      subst he
      rfl
    | some r =>
      obtain ⟨b, buf⟩ := r
      cases b <;> cases is_flush <;> simp [hf] at he
      all_goals first | (subst he; rfl) | (rcases he with rfl | rfl <;> rfl) |
        (rcases he with rfl | rfl | rfl <;> rfl)

theorem guarded_formatter_status (env : Env) (logger : LoggerRef) (method : Method)
    (is_flush : Bool) (formatter : Formatter) (msg : Option String) (args : List String) :
    (guarded_formatter_outcome env logger method is_flush formatter msg args).status =
      if (msg.bind (fun m => formatter "" m args)).isSome then .running else .thrown := by
  unfold guarded_formatter_outcome
  cases msg with
  | none => rfl
  | some m =>
    cases hf : formatter "" m args with
    | none => simp [hf]
    | some r =>
      obtain ⟨b, buf⟩ := r
      cases b <;> simp [hf]

theorem critical_fmt_logging_steps (env : Env) (mod : String) (formatter : Formatter)
    (msg : Option String) (args : List String) :
    ∀ e ∈ (LOGCRITICALMOD_FMT env mod formatter msg args).events, e.is_logging_step = true := by
  intro e he
  unfold LOGCRITICALMOD_FMT seq at he
  rw [critical_fmt_using_logger_eq, critical_fmt_using_logger_eq] at he
  have h1 := guarded_formatter_logging_steps env .GetCriticalLogger .critical true formatter msg
    args
  have h2 := guarded_formatter_logging_steps env .GetLogger .critical true formatter msg args
  split at he
  · rcases List.mem_append.1 he with he | he
    · split at he
      · exact h1 e he
      · simp at he
    · split at he
      · exact h2 e he
      · simp at he
  · split at he
    · exact h1 e he
    · simp at he

theorem critical_fmt_status (env : Env) (mod : String) (formatter : Formatter)
    (msg : Option String) (args : List String) :
    (LOGCRITICALMOD_FMT env mod formatter msg args).status =
      if (LEVELCHECK env mod .critical &&
            (env.non_null .GetCriticalLogger || env.non_null .GetLogger)) &&
          !(msg.bind (fun m => formatter "" m args)).isSome then .thrown
      else .running := by
  unfold LOGCRITICALMOD_FMT seq
  rw [critical_fmt_using_logger_eq, critical_fmt_using_logger_eq]
  have h1 := guarded_formatter_status env .GetCriticalLogger .critical true formatter msg args
  have h2 := guarded_formatter_status env .GetLogger .critical true formatter msg args
  cases hl : LEVELCHECK env mod .critical <;> cases ha : env.non_null .GetCriticalLogger <;>
    cases hb : env.non_null .GetLogger <;>
    cases hs : (msg.bind (fun m => formatter "" m args)).isSome <;>
    simp [hs] at h1 h2 ⊢ <;> simp [h1, h2]

theorem abort_or_dump_eq (env : Env) (is_log_assert : Bool) :
    _ABORT_OR_DUMP env is_log_assert =
      if env.NDEBUG then
        (if is_log_assert then
          (if env.crash_handler_installed then ⟨[.log_stack_trace false], .running⟩
          else ⟨[], .running⟩)
        else ⟨[.abort], .terminated⟩)
      else ⟨[.assert_fail], .terminated⟩ := by
  unfold _ABORT_OR_DUMP assert_0 log_stack_trace abort
  cases env.NDEBUG <;> cases is_log_assert <;> cases env.crash_handler_installed <;>
    simp [seq, skip, emit]

theorem generic_assert_failed_returns (env : Env) (is_log_assert : Bool) (formatter : Formatter)
    (msg : Option String) (args : List String)
    (h : (LOGCRITICALMOD_FMT env "base" formatter msg args).status = .running) :
    _GENERIC_ASSERT env is_log_assert false formatter msg args =
      ⟨Event.eval_cond :: (LOGCRITICALMOD_FMT env "base" formatter msg args).events ++
          (_ABORT_OR_DUMP env is_log_assert).events,
        (_ABORT_OR_DUMP env is_log_assert).status⟩ := by
  unfold _GENERIC_ASSERT _LOG_AND_ASSERT_FMT
  rw [seq_of_running (LOGCRITICALMOD_FMT env "base" formatter msg args) _ h]
  simp [seq, emit]

theorem generic_assert_failed_throws (env : Env) (is_log_assert : Bool) (formatter : Formatter)
    (msg : Option String) (args : List String)
    (h : (LOGCRITICALMOD_FMT env "base" formatter msg args).status = .thrown) :
    _GENERIC_ASSERT env is_log_assert false formatter msg args =
      ⟨Event.eval_cond :: (LOGCRITICALMOD_FMT env "base" formatter msg args).events,
        .thrown⟩ := by
  unfold _GENERIC_ASSERT _LOG_AND_ASSERT_FMT
  rw [seq_of_thrown (LOGCRITICALMOD_FMT env "base" formatter msg args) _ h]
  simp [seq, emit, h]

theorem generic_assert_passed (env : Env) (is_log_assert : Bool) (formatter : Formatter)
    (msg : Option String) (args : List String) :
    _GENERIC_ASSERT env is_log_assert true formatter msg args = ⟨[.eval_cond], .running⟩ := by
  simp [_GENERIC_ASSERT, seq, emit, skip]

theorem release_call_eq (env : Env) (call : AssertCall) :
    call.RELEASE env =
      _GENERIC_ASSERT env false call.cond (call.formatter env) (call.msg env) call.args := by
  cases call <;> rfl

theorem logmsg_call_eq (env : Env) (call : AssertCall) (o : Outcome)
    (h : call.LOGMSG env = some o) :
    o = _GENERIC_ASSERT env true call.cond (call.formatter env) (call.msg env) call.args := by
  cases call <;> simp [AssertCall.LOGMSG, LOGMSG_ASSERT_GE] at h <;> subst h <;> rfl

theorem logging_status_of_returns (env : Env) (call : AssertCall)
    (h : call.logging_returns env = true) :
    (LOGCRITICALMOD_FMT env "base" (call.formatter env) (call.msg env) call.args).status =
      .running := by
  rw [critical_fmt_status]
  unfold AssertCall.logging_returns formatter_called AssertCall.formatter_outcome at h
  cases hl : LEVELCHECK env "base" .critical <;> cases ha : env.non_null .GetCriticalLogger <;>
    cases hb : env.non_null .GetLogger <;>
    cases hs : ((call.msg env).bind (fun m => call.formatter env "" m call.args)).isSome <;>
    simp [hl, ha, hb, hs] at h ⊢

theorem logging_status_of_throws (env : Env) (call : AssertCall)
    (h : call.logging_returns env = false) :
    (LOGCRITICALMOD_FMT env "base" (call.formatter env) (call.msg env) call.args).status =
      .thrown := by
  rw [critical_fmt_status]
  unfold AssertCall.logging_returns formatter_called AssertCall.formatter_outcome at h
  cases hl : LEVELCHECK env "base" .critical <;> cases ha : env.non_null .GetCriticalLogger <;>
    cases hb : env.non_null .GetLogger <;>
    cases hs : ((call.msg env).bind (fun m => call.formatter env "" m call.args)).isSome <;>
    simp [hl, ha, hb, hs] at h ⊢

theorem critical_fmt_events (env : Env) (mod : String) (formatter : Formatter)
    (msg : Option String) (args : List String)
    (h : (msg.bind (fun m => formatter "" m args)).isSome = true) :
    (LOGCRITICALMOD_FMT env mod formatter msg args).events =
      (if env.non_null .GetCriticalLogger && LEVELCHECK env mod .critical then
        (guarded_formatter_outcome env .GetCriticalLogger .critical true formatter msg args).events
      else []) ++
      (if env.non_null .GetLogger && LEVELCHECK env mod .critical then
        (guarded_formatter_outcome env .GetLogger .critical true formatter msg args).events
      else []) := by
  have h1 := guarded_formatter_status env .GetCriticalLogger .critical true formatter msg args
  rw [h] at h1
  unfold LOGCRITICALMOD_FMT seq
  rw [critical_fmt_using_logger_eq, critical_fmt_using_logger_eq]
  cases env.non_null .GetCriticalLogger <;> cases env.non_null .GetLogger <;>
    cases LEVELCHECK env mod .critical <;> simp at h1 ⊢ <;> simp [h1]

theorem formatter_result_true (env : Env) (call : AssertCall)
    (h : call.formatter_result env = true) :
    ∃ m buf, call.msg env = some m ∧ call.formatter env "" m call.args = some (true, buf) := by
  unfold AssertCall.formatter_result AssertCall.formatter_outcome at h
  cases hm : call.msg env with
  | none => simp [hm] at h
  | some m =>
    cases hf : call.formatter env "" m call.args with
    | none => simp [hm, hf] at h
    | some r =>
      obtain ⟨b, buf⟩ := r
      simp [hm, hf] at h
      exact ⟨m, buf, rfl, by rw [hf, h]⟩

theorem generic_assert_failed_flushes (env : Env) (is_log_assert : Bool) (formatter : Formatter)
    (msg : Option String) (m buf : String) (args : List String) (l : LoggerRef)
    (hlevel : LEVELCHECK env "base" .critical = true)
    (hm : msg = some m) (hf : formatter "" m args = some (true, buf))
    (hl : l = .GetCriticalLogger ∨ l = .GetLogger) (hnn : env.non_null l = true) :
    ∃ before after,
      (_GENERIC_ASSERT env is_log_assert false formatter msg args).events =
        before ++ [Event.log l .critical (formatted_record env formatter m args) [], Event.flush l]
          ++ after ++ (_ABORT_OR_DUMP env is_log_assert).events ∧
      ∀ e ∈ before ++ after, e.is_logging_step = true := by
  have hsome : (msg.bind (fun m => formatter "" m args)).isSome = true := by
    rw [hm]
    simp [hf]
  have hstatus : (LOGCRITICALMOD_FMT env "base" formatter msg args).status = .running := by
    rw [critical_fmt_status, hsome]
    simp
  rw [generic_assert_failed_returns env is_log_assert formatter msg args hstatus,
    critical_fmt_events env "base" formatter msg args hsome]
  subst hm
  simp only [hlevel, Bool.and_true, guarded_formatter_outcome, hf, if_true]
  rcases hl with rfl | rfl
  · refine ⟨[.eval_cond, .formatter m args],
      (if env.non_null .GetLogger = true then
        [Event.formatter m args,
          Event.log .GetLogger .critical (formatted_record env formatter m args) [],
          Event.flush .GetLogger]
      else []), ?_, ?_⟩
    · simp [hnn]
    · intro e he
      cases h : env.non_null .GetLogger <;> simp [h] at he <;>
        rcases he with rfl | rfl | rfl | rfl | rfl <;> rfl
  · refine ⟨Event.eval_cond ::
      ((if env.non_null .GetCriticalLogger = true then
        [Event.formatter m args,
          Event.log .GetCriticalLogger .critical (formatted_record env formatter m args) [],
          Event.flush .GetCriticalLogger]
      else []) ++ [.formatter m args]), [], ?_, ?_⟩
    · simp [hnn]
    · intro e he
      cases h : env.non_null .GetCriticalLogger <;> simp [h] at he <;>
        rcases he with rfl | rfl | rfl | rfl | rfl <;> rfl

theorem gated_log_eq (env : Env) (site : CallSite) (mod : String) (logger : LoggerRef)
    (msg : String) (args : List String) (s : Method) :
    LOGMOD_USING_LOGGER_of s env site mod logger msg args =
      ⟨(if s = .critical ∧ (env.non_null .GetCriticalLogger && LEVELCHECK env mod .critical) then
          [Event.log .GetCriticalLogger .critical (LINEOUTPUTFORMAT ++ msg)
            (LINEOUTPUTARGS site ++ args)]
        else []) ++
        (if env.non_null logger && LEVELCHECK env mod s.severity then
          [Event.log logger s (LINEOUTPUTFORMAT ++ msg) (LINEOUTPUTARGS site ++ args)]
        else []), .running⟩ := by
  cases s <;>
    simp only [LOGMOD_USING_LOGGER_of, LOGTRACEMOD_USING_LOGGER, LOGDEBUGMOD_USING_LOGGER,
      LOGINFOMOD_USING_LOGGER, LOGWARNMOD_USING_LOGGER, LOGERRORMOD_USING_LOGGER,
      LOGCRITICALMOD_USING_LOGGER, Method.severity] <;>
    cases h1 : env.non_null logger <;> cases h3 : env.non_null .GetCriticalLogger <;>
    simp [arrow, emit, skip, seq, h1, h3] <;>
    split_ifs <;> simp_all

theorem mem_add_logger_thread (set : logger_thread_set) (ctx c : Nat) :
    c ∈ add_logger_thread set ctx ↔ c = ctx ∨ c ∈ set := by
  unfold add_logger_thread
  by_cases h : ctx ∈ set
  · simp only [h, if_true]
    constructor
    · exact Or.inr
    · rintro (rfl | hc)
      · exact h
      · exact hc
  · simp [h]

theorem add_logger_thread_nodup (set : logger_thread_set) (ctx : Nat) (h : set.Nodup) :
    (add_logger_thread set ctx).Nodup := by
  unfold add_logger_thread
  by_cases hc : ctx ∈ set
  · simpa [hc] using h
  · simpa [hc] using h

theorem remove_logger_thread_nodup (set : logger_thread_set) (ctx : Nat) (h : set.Nodup) :
    (remove_logger_thread set ctx).Nodup :=
  h.erase ctx

theorem mem_remove_logger_thread (set : logger_thread_set) (ctx c : Nat) (h : set.Nodup) :
    c ∈ remove_logger_thread set ctx ↔ c ≠ ctx ∧ c ∈ set :=
  h.mem_erase_iff

theorem run_registry_nodup (calls : List RegistryCall) :
    ∀ set : logger_thread_set, set.Nodup → (run_registry set calls).Nodup := by
  induction calls with
  | nil => intro set h; exact h
  | cons call rest ih =>
    intro set h
    cases call with
    | add ctx => exact ih _ (add_logger_thread_nodup set ctx h)
    | remove ctx => exact ih _ (remove_logger_thread_nodup set ctx h)

theorem mem_run_registry (calls : List RegistryCall) :
    ∀ set added : List Nat, set.Nodup → calls.Nodup → removes_follow_adds calls added = true →
      (∀ c, RegistryCall.add c ∈ calls → c ∉ added) → (∀ c ∈ set, c ∈ added) →
      (∀ c, RegistryCall.remove c ∈ calls → c ∈ added → c ∈ set) →
      ∀ c, c ∈ run_registry set calls ↔
        (c ∈ set ∨ RegistryCall.add c ∈ calls) ∧ RegistryCall.remove c ∉ calls := by
  induction calls with
  | nil => intro set added _ _ _ _ _ _ c; simp [run_registry]
  | cons call rest ih =>
    intro set added hset hcalls hfollow hfresh hsub hlive c
    have hrest : rest.Nodup := (List.nodup_cons.1 hcalls).2
    have hhead : call ∉ rest := (List.nodup_cons.1 hcalls).1
    cases call with
    | add ctx =>
      have hctx : ctx ∉ added := hfresh ctx (List.mem_cons_self _ _)
      have key := ih (add_logger_thread set ctx) (ctx :: added)
        (add_logger_thread_nodup set ctx hset) hrest (by simpa [removes_follow_adds] using hfollow)
        (by
          intro c1 h1 h2
          rcases List.mem_cons.1 h2 with rfl | h2
          · exact hhead h1
          · exact hfresh c1 (List.mem_cons_of_mem _ h1) h2)
        (by
          intro c1 h1
          rcases (mem_add_logger_thread set ctx c1).1 h1 with rfl | h1
          · exact List.mem_cons_self _ _
          · exact List.mem_cons_of_mem _ (hsub c1 h1))
        (by
          intro c1 h1 h2
          rcases List.mem_cons.1 h2 with rfl | h2
          · exact (mem_add_logger_thread set c1 c1).2 (Or.inl rfl)
          · exact (mem_add_logger_thread set ctx c1).2
              (Or.inr (hlive c1 (List.mem_cons_of_mem _ h1) h2)))
        c
      have hrun : run_registry set (RegistryCall.add ctx :: rest) =
          run_registry (add_logger_thread set ctx) rest := rfl
      rw [hrun, key, mem_add_logger_thread]
      simp only [List.mem_cons, RegistryCall.add.injEq, reduceCtorEq, false_or]
      tauto
    | remove ctx =>
      have hf : added.contains ctx = true ∧ removes_follow_adds rest added = true := by
        simpa [removes_follow_adds] using hfollow
      have hctx : ctx ∈ added := by simpa using hf.1
      have hnoadd : RegistryCall.add ctx ∉ rest := fun h =>
        hfresh ctx (List.mem_cons_of_mem _ h) hctx
      have key := ih (remove_logger_thread set ctx) added
        (remove_logger_thread_nodup set ctx hset) hrest hf.2
        (fun c1 h1 => hfresh c1 (List.mem_cons_of_mem _ h1))
        (fun c1 h1 => hsub c1 ((mem_remove_logger_thread set ctx c1 hset).1 h1).2)
        (by
          intro c1 h1 h2
          refine (mem_remove_logger_thread set ctx c1 hset).2 ⟨?_, ?_⟩
          · rintro rfl
            exact hhead h1
          · exact hlive c1 (List.mem_cons_of_mem _ h1) h2)
        c
      have hrun : run_registry set (RegistryCall.remove ctx :: rest) =
          run_registry (remove_logger_thread set ctx) rest := rfl
      rw [hrun, key, mem_remove_logger_thread set ctx c hset]
      simp only [List.mem_cons, RegistryCall.remove.injEq, reduceCtorEq, false_or, not_or]
      constructor
      · rintro ⟨(⟨h1, h2⟩ | h1), h3⟩
        · exact ⟨Or.inl h2, h1, h3⟩
        · refine ⟨Or.inr h1, ?_, h3⟩
          rintro rfl
          exact hnoadd h1
      · rintro ⟨(h1 | h1), h2, h3⟩
        · exact ⟨Or.inl ⟨h2, h1⟩, h3⟩
        · exact ⟨Or.inr h1, h3⟩

theorem removes_follow_adds_map_add (ctxs : List Nat) :
    ∀ (rest : List RegistryCall) (added : List Nat),
      removes_follow_adds (ctxs.map RegistryCall.add ++ rest) added =
        removes_follow_adds rest (ctxs.reverse ++ added) := by
  induction ctxs with
  | nil => intro rest added; rfl
  | cons ctx more ih =>
    intro rest added
    have h : removes_follow_adds ((ctx :: more).map RegistryCall.add ++ rest) added =
        removes_follow_adds (more.map RegistryCall.add ++ rest) (ctx :: added) := rfl
    rw [h, ih]
    simp

theorem removes_follow_adds_map_remove (order : List Nat) (added : List Nat)
    (h : ∀ c ∈ order, c ∈ added) :
    removes_follow_adds (order.map RegistryCall.remove) added = true := by
  induction order with
  | nil => rfl
  | cons ctx more ih =>
    simp only [List.map_cons, removes_follow_adds, Bool.and_eq_true]
    refine ⟨?_, ih (fun c hc => h c (List.mem_cons_of_mem _ hc))⟩
    simpa using h ctx (List.mem_cons_self _ _)

/-! ## Claims -/

/-- C1, as amended. A failed check of the `RELEASE_ASSERT` or `LOGMSG_ASSERT`
family writes a critical record to, and flushes, each of the critical and the
default logger that is non-null, before the steps of `_ABORT_OR_DUMP`,
provided the level of module `base` passes the check for `critical` (it is
not `off`) and the formatter of the call returns true. -/
theorem failed_assert_flushes_critical_when_enabled (env : Env) (call : AssertCall)
    (l : LoggerRef)
    (hcond : call.cond = false)
    (hlevel : LEVELCHECK env "base" .critical = true)
    (hfmt : call.formatter_result env = true)
    (hl : l = .GetCriticalLogger ∨ l = .GetLogger)
    (hnn : env.non_null l = true) :
    (∃ before after payload,
      (call.RELEASE env).events =
        before ++ [Event.log l .critical payload [], Event.flush l] ++ after
          ++ (_ABORT_OR_DUMP env false).events ∧
      ∀ e ∈ before ++ after, e.is_logging_step = true) ∧
    (∀ o, call.LOGMSG env = some o →
      ∃ before after payload,
        o.events =
          before ++ [Event.log l .critical payload [], Event.flush l] ++ after
            ++ (_ABORT_OR_DUMP env true).events ∧
        ∀ e ∈ before ++ after, e.is_logging_step = true) := by
  obtain ⟨m, buf, hm, hf⟩ := formatter_result_true env call hfmt
  constructor
  · rw [release_call_eq, hcond]
    obtain ⟨before, after, h1, h2⟩ :=
      generic_assert_failed_flushes env false (call.formatter env) (call.msg env) m buf call.args l
        hlevel hm hf hl hnn
    exact ⟨before, after, _, h1, h2⟩
  · intro o ho
    rw [logmsg_call_eq env call o ho, hcond]
    obtain ⟨before, after, h1, h2⟩ :=
      generic_assert_failed_flushes env true (call.formatter env) (call.msg env) m buf call.args l
        hlevel hm hf hl hnn
    exact ⟨before, after, _, h1, h2⟩

/-- C1, witness: `RELEASE_ASSERT_EQ(3, 5)` and `LOGMSG_ASSERT_EQ(3, 5)` in a
release build with module `base` at `info`, on the default logger. -/
theorem failed_assert_flushes_critical_when_enabled_witness :
    (∃ before after payload,
      (RELEASE_ASSERT_EQ env_release (.int 3) (.int 5) []).events =
        before ++ [Event.log .GetLogger .critical payload [], Event.flush .GetLogger] ++ after
          ++ (_ABORT_OR_DUMP env_release false).events ∧
      ∀ e ∈ before ++ after, e.is_logging_step = true) ∧
    (∀ o, some (LOGMSG_ASSERT_EQ env_release (.int 3) (.int 5) []) = some o →
      ∃ before after payload,
        o.events =
          before ++ [Event.log .GetLogger .critical payload [], Event.flush .GetLogger] ++ after
            ++ (_ABORT_OR_DUMP env_release true).events ∧
        ∀ e ∈ before ++ after, e.is_logging_step = true) :=
  failed_assert_flushes_critical_when_enabled env_release (.EQ (.int 3) (.int 5) []) .GetLogger
    (by decide) (by decide) (by decide) (Or.inr rfl) (by decide)

/-- C1, counterexample: with module `base` at `off`, every logger non-null and
the default formatter (which returns true), a failed `RELEASE_ASSERT` reaches
`abort()` with no record written and no flush; with module `base` at `info`
a formatter that returns false gives the same, and so do null loggers. -/
theorem failed_assert_without_record :
    RELEASE_ASSERT env_off false "boom" [] = ⟨[.eval_cond, .abort], .terminated⟩ ∧
    has_flushed_critical (RELEASE_ASSERT env_off false "boom" []).events = false ∧
    RELEASE_ASSERT_FMT env_release false declining_formatter "boom" [] =
      ⟨[.eval_cond, .formatter "boom" [], .formatter "boom" [], .abort], .terminated⟩ ∧
    has_flushed_critical
      (RELEASE_ASSERT_FMT env_release false declining_formatter "boom" []).events = false ∧
    RELEASE_ASSERT env_null_loggers false "boom" [] = ⟨[.eval_cond, .abort], .terminated⟩ := by
  decide

/-- C2, as amended. When a check of the `LOGMSG_ASSERT` family fails, the
logging part runs and then: in a build with `NDEBUG` and with the crash
handler installed `log_stack_trace(false)` is called and control continues; in
a build with `NDEBUG` and no crash handler nothing more happens and control
continues; in a build without `NDEBUG` the failing `assert(0)` terminates the
process and `log_stack_trace` is not called. That is so whenever the logging
part returns; when an exception leaves it, nothing comes after it.
`LOGDFATAL` with non-null loggers behaves the same after its four logging
calls. -/
theorem debug_fatal_dump_only_in_release_with_handler (env : Env) :
    (∀ (call : AssertCall) (o : Outcome), call.cond = false → call.LOGMSG env = some o →
      ∃ logging, (∀ e ∈ logging, e.is_logging_step = true) ∧
        (call.logging_returns env = true →
          o = ⟨logging ++
                (if env.NDEBUG then
                  (if env.crash_handler_installed then [Event.log_stack_trace false] else [])
                else [Event.assert_fail]),
              if env.NDEBUG then .running else .terminated⟩) ∧
        (call.logging_returns env = false → o = ⟨logging, .thrown⟩)) ∧
    (∀ (site : CallSite) (msg : String) (args : List String),
      env.non_null .GetCriticalLogger = true → env.non_null .GetLogger = true →
      ∃ logging, (∀ e ∈ logging, e.is_logging_step = true) ∧
        LOGDFATAL env site msg args =
          ⟨logging ++
              (if env.NDEBUG then
                (if env.crash_handler_installed then [Event.log_stack_trace false] else [])
              else [Event.assert_fail]),
            if env.NDEBUG then .running else .terminated⟩) := by
  constructor
  · intro call o hcond ho
    refine ⟨Event.eval_cond ::
      (LOGCRITICALMOD_FMT env "base" (call.formatter env) (call.msg env) call.args).events,
      ?_, ?_, ?_⟩
    · intro e he
      rcases List.mem_cons.1 he with rfl | he
      · rfl
      · exact critical_fmt_logging_steps _ _ _ _ _ e he
    · intro hret
      rw [logmsg_call_eq env call o ho, hcond,
        generic_assert_failed_returns _ _ _ _ _ (logging_status_of_returns env call hret),
        abort_or_dump_eq]
      cases env.NDEBUG <;> cases env.crash_handler_installed <;> simp
    · intro hret
      rw [logmsg_call_eq env call o ho, hcond,
        generic_assert_failed_throws _ _ _ _ _ (logging_status_of_throws env call hret)]
  · intro site msg args hcl hl
    refine ⟨[Event.log .GetCriticalLogger .critical (LINEOUTPUTFORMAT ++ msg)
        (LINEOUTPUTARGS site ++ args), Event.flush .GetCriticalLogger,
      Event.log .GetLogger .critical (LINEOUTPUTFORMAT ++ msg) (LINEOUTPUTARGS site ++ args),
      Event.flush .GetLogger], ?_, ?_⟩
    · intro e he
      simp at he
      rcases he with rfl | rfl | rfl | rfl <;> rfl
    · unfold LOGDFATAL _LOG_AND_ASSERT LOGCRITICAL_AND_FLUSH
      rw [abort_or_dump_eq]
      cases env.NDEBUG <;> cases env.crash_handler_installed <;>
        simp [seq, arrow, emit, hcl, hl]

/-- C2, witness: `LOGMSG_ASSERT_EQ(value, 5)` with `value = 3` in a release
build with the crash handler installed. -/
theorem debug_fatal_dump_only_in_release_with_handler_witness :
    ∃ logging, (∀ e ∈ logging, e.is_logging_step = true) ∧
      LOGMSG_ASSERT_EQ env_release (.int 3) (.int 5) [] =
        ⟨logging ++ [Event.log_stack_trace false], .running⟩ :=
  match (debug_fatal_dump_only_in_release_with_handler env_release).1
    (.EQ (.int 3) (.int 5) []) _ (by decide) rfl with
  | ⟨logging, h1, h2, _⟩ => ⟨logging, h1, h2 (by decide)⟩

/-- C2, counterexample: `LOGMSG_ASSERT_EQ(value, 5)` with `value = 3`. In a
build without `NDEBUG` (crash handler installed) the process is terminated by
`assert(0)` and `log_stack_trace` is never called; in a release build without
crash handler control continues and `log_stack_trace` is never called. And
`LOGDFATAL` with null loggers calls a member through a null pointer before
anything else. -/
theorem debug_fatal_without_dump :
    ((LOGMSG_ASSERT_EQ env_debug (.int 3) (.int 5) []).status = .terminated ∧
      (LOGMSG_ASSERT_EQ env_debug (.int 3) (.int 5) []).events.getLast? =
        some Event.assert_fail ∧
      Event.log_stack_trace false ∉ (LOGMSG_ASSERT_EQ env_debug (.int 3) (.int 5) []).events) ∧
    ((LOGMSG_ASSERT_EQ env_no_handler (.int 3) (.int 5) []).status = .running ∧
      Event.log_stack_trace false ∉
        (LOGMSG_ASSERT_EQ env_no_handler (.int 3) (.int 5) []).events) ∧
    LOGDFATAL env_null_loggers site_here "boom" [] =
      ⟨[.null_deref .GetCriticalLogger], .undefined⟩ := by
  decide

/-- C3, as amended. A `RELEASE_ASSERT` of any variant whose condition is
false ends in process termination, by `assert(0)` in a build without `NDEBUG`
and by `abort()` in a build with it, after steps of the logging part only,
whatever the module levels and the loggers are and whether the formatter
returns true or false, provided no exception leaves the logging part: that
is, it makes no formatter call (module `base` at `off`, or both loggers
null), or the message evaluates and the formatter returns. When an exception
leaves the logging part, it leaves the assertion too, before `assert(0)` and
`abort()`. With a true condition the assertion only evaluates the condition:
no record, no flush, no abort. -/
theorem release_assert_terminates (env : Env) (call : AssertCall) :
    (call.cond = false → call.logging_returns env = true →
      ∃ logging, (∀ e ∈ logging, e.is_logging_step = true) ∧
        call.RELEASE env =
          ⟨logging ++ [if env.NDEBUG then Event.abort else Event.assert_fail], .terminated⟩) ∧
    (call.cond = false → call.logging_returns env = false →
      ∃ logging, (∀ e ∈ logging, e.is_logging_step = true) ∧
        call.RELEASE env = ⟨logging, .thrown⟩) ∧
    (call.cond = true → call.RELEASE env = ⟨[.eval_cond], .running⟩) ∧
    (formatter_called env = false → call.logging_returns env = true) ∧
    (∀ (b : Bool) (buf : String), call.formatter_outcome env = some (b, buf) →
      call.logging_returns env = true) := by
  have hsteps : ∀ e ∈ Event.eval_cond ::
      (LOGCRITICALMOD_FMT env "base" (call.formatter env) (call.msg env) call.args).events,
      e.is_logging_step = true := by
    intro e he
    rcases List.mem_cons.1 he with rfl | he
    · rfl
    · exact critical_fmt_logging_steps _ _ _ _ _ e he
  refine ⟨?_, ?_, ?_, ?_, ?_⟩
  · intro hcond hret
    refine ⟨_, hsteps, ?_⟩
    rw [release_call_eq, hcond,
      generic_assert_failed_returns _ _ _ _ _ (logging_status_of_returns env call hret),
      abort_or_dump_eq]
    cases env.NDEBUG <;> simp
  · intro hcond hret
    refine ⟨_, hsteps, ?_⟩
    rw [release_call_eq, hcond,
      generic_assert_failed_throws _ _ _ _ _ (logging_status_of_throws env call hret)]
  · intro hcond
    rw [release_call_eq, hcond, generic_assert_passed]
  · intro h
    simp [AssertCall.logging_returns, h]
  · intro b buf h
    simp [AssertCall.logging_returns, h]

/-- C3, witness: `RELEASE_ASSERT_EQ(3, 5)` with every module at `off`, and
`RELEASE_ASSERT_EQ(5, 5)`. -/
theorem release_assert_terminates_witness :
    (∃ logging, (∀ e ∈ logging, e.is_logging_step = true) ∧
      RELEASE_ASSERT_EQ env_off (.int 3) (.int 5) [] =
        ⟨logging ++ [Event.abort], .terminated⟩) ∧
    RELEASE_ASSERT_EQ env_off (.int 5) (.int 5) [] = ⟨[.eval_cond], .running⟩ :=
  ⟨(release_assert_terminates env_off (.EQ (.int 3) (.int 5) [])).1 (by decide) (by decide),
    (release_assert_terminates env_off (.EQ (.int 5) (.int 5) [])).2.2.1 (by decide)⟩

/-- C3, counterexample: with module `base` at `info` and every logger
non-null, the failed `RELEASE_ASSERT(false, "{}")`, whose message has a field
and no argument, is left by the exception of `fmt::format_to` after the
formatter call, in a build with `NDEBUG` and in one without: no `abort()`, no
`assert(0)`. The failed `RELEASE_ASSERT_EQ(3, 5, "{")` is left when its
message is evaluated, and `RELEASE_ASSERT_EQ(3, 5, "{{")`, whose message
evaluates to one brace, when the formatter formats that message again. -/
theorem release_assert_left_by_exception :
    RELEASE_ASSERT env_release false "\x7b\x7d" [] =
      ⟨[.eval_cond, .formatter "\x7b\x7d" []], .thrown⟩ ∧
    RELEASE_ASSERT env_debug false "\x7b\x7d" [] =
      ⟨[.eval_cond, .formatter "\x7b\x7d" []], .thrown⟩ ∧
    RELEASE_ASSERT_EQ env_release (.int 3) (.int 5) ["\x7b"] = ⟨[.eval_cond], .thrown⟩ ∧
    RELEASE_ASSERT_EQ env_release (.int 3) (.int 5) ["\x7b\x7b"] =
      ⟨[.eval_cond, .formatter "\x7b" ["3", "==", "5"]], .thrown⟩ := by
  refine ⟨by decide, by decide, by decide, by decide⟩

/-- C4. With a non-null logger, the gated log statement of a severity calls
the method of that severity on the logger exactly when the level of the
module is at most the severity, in the order of the numeric values
`trace < debug < info < warn < err < critical < off`; it calls nothing but
that method and never terminates the process; a module at `off` makes no
call at all; and the forms without `_USING_LOGGER` are the same statements on
the default logger. -/
theorem gated_log_iff_level (env : Env) (site : CallSite) (mod : String) (logger : LoggerRef)
    (msg : String) (args : List String) (s : Method) (hnn : env.non_null logger = true) :
    (Event.log logger s (LINEOUTPUTFORMAT ++ msg) (LINEOUTPUTARGS site ++ args) ∈
        (LOGMOD_USING_LOGGER_of s env site mod logger msg args).events ↔
      (env.module_level mod).toNat ≤ s.severity.toNat) ∧
    (∀ e ∈ (LOGMOD_USING_LOGGER_of s env site mod logger msg args).events,
      ∃ l, e = Event.log l s (LINEOUTPUTFORMAT ++ msg) (LINEOUTPUTARGS site ++ args)) ∧
    (LOGMOD_USING_LOGGER_of s env site mod logger msg args).status = .running ∧
    (env.module_level mod = .off →
      (LOGMOD_USING_LOGGER_of s env site mod logger msg args).events = []) ∧
    LOGMOD_of s env site mod msg args =
      LOGMOD_USING_LOGGER_of s env site mod .GetLogger msg args := by
  refine ⟨?_, ?_, ?_, ?_, ?_⟩
  · rw [gated_log_eq]
    by_cases h : (env.module_level mod).toNat ≤ s.severity.toNat
    · simp [LEVELCHECK, hnn, h]
    · cases s <;> simp [LEVELCHECK, hnn, h]
      intro _ h5
      exact absurd h5 h
  · rw [gated_log_eq]
    intro e he
    simp only [List.mem_append] at he
    rcases he with he | he <;> split at he <;> simp at he
    · rename_i hs
      exact ⟨_, by rw [he, hs.1]⟩
    · exact ⟨_, he⟩
  · rw [gated_log_eq]
  · intro hoff
    rw [gated_log_eq]
    cases s <;> simp [LEVELCHECK, hoff, level_enum.toNat, Method.severity]
  · cases s <;> rfl

/-- C4, witness: against a module at `info` a warning is written and a debug
record is not. -/
theorem gated_log_iff_level_witness :
    Event.log .GetLogger .warn (LINEOUTPUTFORMAT ++ "m") (LINEOUTPUTARGS site_here ++ []) ∈
        (LOGWARNMOD_USING_LOGGER env_release site_here "base" .GetLogger "m" []).events ∧
    Event.log .GetLogger .debug (LINEOUTPUTFORMAT ++ "m") (LINEOUTPUTARGS site_here ++ []) ∉
        (LOGDEBUGMOD_USING_LOGGER env_release site_here "base" .GetLogger "m" []).events :=
  ⟨(gated_log_iff_level env_release site_here "base" .GetLogger "m" [] .warn rfl).1.2
      (by decide),
    fun h => absurd
      ((gated_log_iff_level env_release site_here "base" .GetLogger "m" [] .debug rfl).1.1 h)
      (by decide)⟩

/-- C5, as amended. Every critical record written by
`LOGCRITICALMOD_FMT_USING_LOGGER`, `LOGCRITICALMOD_FMT` or
`LOGCRITICAL_AND_FLUSH` is followed by a flush of the logger that received it;
`LOGCRITICALMOD_USING_LOGGER`, and with it `LOGCRITICALMOD` and `LOGCRITICAL`,
only call `critical` and request no flush. -/
theorem critical_flush_by_fmt_and_flush_forms (env : Env) (site : CallSite) (mod : String)
    (formatter : Formatter) (logger : LoggerRef) (msg : String) (msg_expr : Option String)
    (args : List String) :
    every_critical_flushed
      (LOGCRITICALMOD_FMT_USING_LOGGER env mod formatter logger msg_expr args).events = true ∧
    every_critical_flushed (LOGCRITICALMOD_FMT env mod formatter msg_expr args).events = true ∧
    every_critical_flushed (LOGCRITICAL_AND_FLUSH env site msg args).events = true ∧
    (∀ l, Event.flush l ∉ (LOGCRITICALMOD_USING_LOGGER env site mod logger msg args).events) ∧
    LOGCRITICALMOD env site mod msg args =
      LOGCRITICALMOD_USING_LOGGER env site mod .GetLogger msg args ∧
    LOGCRITICAL env site msg args =
      LOGCRITICALMOD_USING_LOGGER env site "base" .GetLogger msg args := by
  have hg : ∀ l : LoggerRef, every_critical_flushed
      (guarded_formatter_outcome env l .critical true formatter msg_expr args).events = true := by
    intro l
    unfold guarded_formatter_outcome
    cases msg_expr with
    | none => rfl
    | some m =>
      cases hf : formatter "" m args with
      | none => simp [hf, every_critical_flushed]
      | some r =>
        obtain ⟨b, buf⟩ := r
        cases b <;> simp [hf, every_critical_flushed]
  have hg2 : ∀ l : LoggerRef, ∀ tail : List Event, every_critical_flushed tail = true →
      every_critical_flushed
        ((guarded_formatter_outcome env l .critical true formatter msg_expr args).events ++ tail)
          = true := by
    intro l tail ht
    unfold guarded_formatter_outcome
    cases msg_expr with
    | none => simpa using ht
    | some m =>
      cases hf : formatter "" m args with
      | none => simpa [hf, every_critical_flushed] using ht
      | some r =>
        obtain ⟨b, buf⟩ := r
        cases b <;> simpa [hf, every_critical_flushed] using ht
  refine ⟨?_, ?_, ?_, ?_, rfl, rfl⟩
  · rw [critical_fmt_using_logger_eq]
    split
    · exact hg logger
    · rfl
  · unfold LOGCRITICALMOD_FMT seq
    rw [critical_fmt_using_logger_eq, critical_fmt_using_logger_eq]
    split
    · dsimp only
      split
      · split
        · exact hg2 _ _ (hg _)
        · simpa using hg _
      · split
        · simpa using hg _
        · rfl
    · split
      · exact hg _
      · rfl
  · unfold LOGCRITICAL_AND_FLUSH
    cases h1 : env.non_null .GetCriticalLogger <;> cases h2 : env.non_null .GetLogger <;>
      simp [seq, arrow, emit, h1, h2, every_critical_flushed]
  · intro l
    have h := gated_log_eq env site mod logger msg args .critical
    simp only [LOGMOD_USING_LOGGER_of] at h
    rw [h]
    intro hmem
    simp only [List.mem_append] at hmem
    rcases hmem with hmem | hmem <;> split at hmem <;> simp at hmem

/-- C5, counterexample: `LOGCRITICAL("hello")` with module `base` at `info`
writes a critical record to the critical and to the default logger and
requests no flush. -/
theorem critical_record_without_flush :
    LOGCRITICAL env_release site_here "hello" [] =
      ⟨[.log .GetCriticalLogger .critical "[\x7b\x7d:\x7b\x7d:\x7b\x7d] hello"
          ["logging.h", "42", "main"],
        .log .GetLogger .critical "[\x7b\x7d:\x7b\x7d:\x7b\x7d] hello"
          ["logging.h", "42", "main"]], .running⟩ ∧
    every_critical_flushed (LOGCRITICAL env_release site_here "hello" []).events = false := by
  decide

/-- C6. The registry never holds a context twice. After a sequence of calls in
which every context is added at most once and removed at most once, and only
after it was added, the registry holds exactly the contexts added and not yet
removed. Adding a member again changes nothing, removing a context keeps
every other member, `N` distinct contexts added to the empty registry give
`N` entries, and removing all of them, in any order, gives the empty
registry. -/
theorem registry_holds_live_contexts :
    (∀ calls : List RegistryCall, (run_registry [] calls).Nodup) ∧
    (∀ calls : List RegistryCall, calls.Nodup → removes_follow_adds calls [] = true →
      ∀ c, c ∈ run_registry [] calls ↔
        RegistryCall.add c ∈ calls ∧ RegistryCall.remove c ∉ calls) ∧
    (∀ (set : logger_thread_set) (ctx : Nat), ctx ∈ set → add_logger_thread set ctx = set) ∧
    (∀ (set : logger_thread_set) (ctx c : Nat), c ≠ ctx →
      (c ∈ remove_logger_thread set ctx ↔ c ∈ set)) ∧
    (∀ ctxs : List Nat, ctxs.Nodup →
      (run_registry [] (ctxs.map RegistryCall.add)).length = ctxs.length) ∧
    (∀ ctxs order : List Nat, ctxs.Nodup → order.Perm ctxs →
      run_registry [] (ctxs.map RegistryCall.add ++ order.map RegistryCall.remove) = []) := by
  have hinj_add : Function.Injective RegistryCall.add := fun a b h => by injection h
  have hinj_remove : Function.Injective RegistryCall.remove := fun a b h => by injection h
  have hlive : ∀ calls : List RegistryCall, calls.Nodup → removes_follow_adds calls [] = true →
      ∀ c, c ∈ run_registry [] calls ↔
        RegistryCall.add c ∈ calls ∧ RegistryCall.remove c ∉ calls := by
    intro calls hcalls hfollow c
    have h := mem_run_registry calls [] [] List.nodup_nil hcalls hfollow
      (fun _ _ h => by simp at h) (fun _ h => by simp at h) (fun _ _ h => by simp at h) c
    simpa using h
  refine ⟨fun calls => run_registry_nodup calls [] List.nodup_nil, hlive, ?_, ?_, ?_, ?_⟩
  · intro set ctx h
    simp [add_logger_thread, h]
  · intro set ctx c h
    exact List.mem_erase_of_ne h
  · intro ctxs hctxs
    have hfollow : removes_follow_adds (ctxs.map RegistryCall.add) [] = true := by
      have h := removes_follow_adds_map_add ctxs [] []
      simp only [List.append_nil] at h
      rw [h]
      rfl
    have hmem := hlive (ctxs.map RegistryCall.add) (hctxs.map hinj_add) hfollow
    have hperm : (run_registry [] (ctxs.map RegistryCall.add)).Perm ctxs := by
      refine (List.perm_ext_iff_of_nodup (run_registry_nodup _ [] List.nodup_nil) hctxs).2 ?_
      intro c
      rw [hmem c]
      simp
    exact hperm.length_eq
  · intro ctxs order hctxs hperm
    have horder : order.Nodup := hperm.symm.nodup_iff.1 hctxs
    have hnodup : (ctxs.map RegistryCall.add ++ order.map RegistryCall.remove).Nodup := by
      refine List.nodup_append.2 ⟨hctxs.map hinj_add, horder.map hinj_remove, ?_⟩
      intro call h1 h2
      rcases List.mem_map.1 h1 with ⟨a, _, rfl⟩
      rcases List.mem_map.1 h2 with ⟨b, _, hb⟩
      cases hb
    have hfollow : removes_follow_adds
        (ctxs.map RegistryCall.add ++ order.map RegistryCall.remove) [] = true := by
      rw [removes_follow_adds_map_add]
      apply removes_follow_adds_map_remove
      intro c hc
      simpa using hperm.subset hc
    refine List.eq_nil_iff_forall_not_mem.2 ?_
    intro c hc
    have h := (hlive _ hnodup hfollow c).1 hc
    simp only [List.mem_append, List.mem_map, RegistryCall.add.injEq, exists_eq_right,
      reduceCtorEq, and_false, exists_false, or_false, RegistryCall.remove.injEq, false_or]
      at h
    exact h.2 (hperm.symm.subset h.1)

/-- C6, witness: contexts 1, 2, 3 with context 1 removed before context 3 is
added leave exactly contexts 3 and 2. -/
theorem registry_holds_live_contexts_witness :
    (∀ c, c ∈ run_registry [] [.add 1, .add 2, .remove 1, .add 3] ↔
      RegistryCall.add c ∈ [RegistryCall.add 1, .add 2, .remove 1, .add 3] ∧
      RegistryCall.remove c ∉ [RegistryCall.add 1, .add 2, .remove 1, .add 3]) ∧
    run_registry [] [.add 1, .add 2, .remove 1, .add 3] = [3, 2] ∧
    run_registry [] ([1, 2, 3].map RegistryCall.add ++ [2, 3, 1].map RegistryCall.remove) = [] :=
  ⟨registry_holds_live_contexts.2.1 [.add 1, .add 2, .remove 1, .add 3] (by decide) (by decide),
    by decide,
    registry_holds_live_contexts.2.2.2.2.2 [1, 2, 3] [2, 3, 1] (by decide) (by decide)⟩

/-- C7. With non-null loggers, `LOGFATAL` and `LOGDFATAL` write the critical
record to the critical logger, flush it, write the record to the default
logger and flush it, in that order, and only then run `_ABORT_OR_DUMP`; the
outcome does not depend on the module levels. -/
theorem fatal_logs_and_flushes_both_loggers (env : Env) (site : CallSite) (msg : String)
    (args : List String) (hcl : env.non_null .GetCriticalLogger = true)
    (hl : env.non_null .GetLogger = true) :
    (∀ is_log_assert : Bool,
      _LOG_AND_ASSERT env site is_log_assert msg args =
        ⟨[Event.log .GetCriticalLogger .critical (LINEOUTPUTFORMAT ++ msg)
              (LINEOUTPUTARGS site ++ args),
            Event.flush .GetCriticalLogger,
            Event.log .GetLogger .critical (LINEOUTPUTFORMAT ++ msg)
              (LINEOUTPUTARGS site ++ args),
            Event.flush .GetLogger] ++ (_ABORT_OR_DUMP env is_log_assert).events,
          (_ABORT_OR_DUMP env is_log_assert).status⟩) ∧
    LOGFATAL env site msg args = _LOG_AND_ASSERT env site false msg args ∧
    LOGDFATAL env site msg args = _LOG_AND_ASSERT env site true msg args ∧
    (∀ levels : String → level_enum,
      LOGFATAL { env with module_level := levels } site msg args = LOGFATAL env site msg args ∧
      LOGDFATAL { env with module_level := levels } site msg args =
        LOGDFATAL env site msg args) := by
  refine ⟨?_, rfl, rfl, fun levels => ⟨rfl, rfl⟩⟩
  intro is_log_assert
  unfold _LOG_AND_ASSERT LOGCRITICAL_AND_FLUSH
  simp [seq, arrow, emit, hcl, hl]

/-- C7, witness: `LOGFATAL("hello")` in a release build whose modules are all
at `off`. -/
theorem fatal_logs_and_flushes_both_loggers_witness :
    LOGFATAL env_off site_here "hello" [] =
      ⟨[Event.log .GetCriticalLogger .critical (LINEOUTPUTFORMAT ++ "hello")
            (LINEOUTPUTARGS site_here ++ []),
          Event.flush .GetCriticalLogger,
          Event.log .GetLogger .critical (LINEOUTPUTFORMAT ++ "hello")
            (LINEOUTPUTARGS site_here ++ []),
          Event.flush .GetLogger] ++ (_ABORT_OR_DUMP env_off false).events,
        (_ABORT_OR_DUMP env_off false).status⟩ :=
  (fatal_logs_and_flushes_both_loggers env_off site_here "hello" [] rfl rfl).1 false

/-- C10. A log statement with a custom formatter calls the formatter exactly
when the logger is non-null and the level of the module is at most the
severity of the record, and calls the logger method exactly when moreover
the formatter returns true; when the level check fails it makes no call at
all; it never terminates the process: control continues, unless the
formatter is called and exits by an exception, which then leaves the
statement. -/
theorem custom_formatter_called_only_when_enabled (env : Env) (mod : String)
    (formatter : Formatter) (logger : LoggerRef) (msg : String) (args : List String)
    (s : Method) :
    (Event.formatter msg args ∈
        (LOGMOD_FMT_USING_LOGGER_of s env mod formatter logger (some msg) args).events ↔
      env.non_null logger = true ∧ (env.module_level mod).toNat ≤ s.severity.toNat) ∧
    ((∃ l method payload rest, Event.log l method payload rest ∈
        (LOGMOD_FMT_USING_LOGGER_of s env mod formatter logger (some msg) args).events) ↔
      env.non_null logger = true ∧ (env.module_level mod).toNat ≤ s.severity.toNat ∧
        (formatter "" msg args).map Prod.fst = some true) ∧
    (Event.log logger s (formatted_record env formatter msg args) [] ∈
        (LOGMOD_FMT_USING_LOGGER_of s env mod formatter logger (some msg) args).events ↔
      env.non_null logger = true ∧ (env.module_level mod).toNat ≤ s.severity.toNat ∧
        (formatter "" msg args).map Prod.fst = some true) ∧
    (¬ (env.module_level mod).toNat ≤ s.severity.toNat →
      (LOGMOD_FMT_USING_LOGGER_of s env mod formatter logger (some msg) args).events = []) ∧
    (LOGMOD_FMT_USING_LOGGER_of s env mod formatter logger (some msg) args).status =
      (if env.non_null logger = true ∧ (env.module_level mod).toNat ≤ s.severity.toNat ∧
          formatter "" msg args = none then .thrown else .running) ∧
    LOGMOD_FMT_USING_LOGGER_of s env mod formatter logger none args =
      (if env.non_null logger = true ∧ (env.module_level mod).toNat ≤ s.severity.toNat then
        ⟨[], .thrown⟩ else ⟨[], .running⟩) := by
  have h : ∀ m : Option String, LOGMOD_FMT_USING_LOGGER_of s env mod formatter logger m args =
      _LOG_WITH_CUSTOM_FORMATTER env s.severity s mod logger (decide (s = .critical)) formatter
        m args := by
    intro m
    cases s <;> rfl
  rw [h, h, custom_formatter_eq, custom_formatter_eq]
  unfold guarded_formatter_outcome
  by_cases h4 : s = .critical
  · subst h4
    cases h1 : env.non_null logger <;>
      by_cases h3 : (env.module_level mod).toNat ≤ Method.critical.severity.toNat <;>
      cases hf : formatter "" msg args with
      | none => simp [LEVELCHECK, h3, hf]
      | some r =>
        obtain ⟨b, buf⟩ := r
        cases b <;> simp [LEVELCHECK, h3, hf]
  · cases h1 : env.non_null logger <;>
      by_cases h3 : (env.module_level mod).toNat ≤ s.severity.toNat <;>
      cases hf : formatter "" msg args with
      | none => simp [LEVELCHECK, h3, h4, hf]
      | some r =>
        obtain ⟨b, buf⟩ := r
        cases b <;> simp [LEVELCHECK, h3, h4, hf]

theorem get_after_set_same (table : List (String × level_enum)) (M : String) (S : level_enum)
    (h : M ∈ table.map Prod.fst) :
    GetModuleLogLevel (SetModuleLogLevel table M S) M = S := by
  induction table with
  | nil => simp at h
  | cons v rest ih =>
    by_cases hv : v.1 = M
    · simp [GetModuleLogLevel, SetModuleLogLevel, List.find?, hv]
    · have hrest : M ∈ rest.map Prod.fst := by
        rcases List.mem_cons.1 h with h1 | h1
        · exact absurd h1.symm hv
        · exact h1
      have := ih hrest
      simp only [GetModuleLogLevel, SetModuleLogLevel, List.map_cons, List.find?, hv, if_false,
        decide_False] at this ⊢
      exact this

theorem get_after_set_other (table : List (String × level_enum)) (M M' : String)
    (S : level_enum) (h : M' ≠ M) :
    GetModuleLogLevel (SetModuleLogLevel table M S) M' = GetModuleLogLevel table M' := by
  induction table with
  | nil => rfl
  | cons v rest ih =>
    by_cases hv : v.1 = M
    · have hv' : ¬ v.1 = M' := fun h1 => h (h1.symm.trans hv)
      have hM : ¬ M = M' := fun h1 => h h1.symm
      simp only [GetModuleLogLevel, SetModuleLogLevel, List.map_cons, List.find?, hv, if_true,
        hM, hv', decide_False] at ih ⊢
      exact ih
    · by_cases hv' : v.1 = M'
      · simp [GetModuleLogLevel, SetModuleLogLevel, List.find?, hv, hv', h]
      · simp only [GetModuleLogLevel, SetModuleLogLevel, List.map_cons, List.find?, hv, if_false,
          hv', decide_False] at ih ⊢
        exact ih

theorem set_unknown_module (table : List (String × level_enum)) (M : String) (S : level_enum)
    (h : M ∉ table.map Prod.fst) : SetModuleLogLevel table M S = table := by
  induction table with
  | nil => rfl
  | cons v rest ih =>
    have hv : ¬ v.1 = M := fun h1 => h (by simp [h1.symm])
    have hrest : M ∉ rest.map Prod.fst := fun h1 => h (by simp at h1 ⊢; exact Or.inr h1)
    have := ih hrest
    simp only [SetModuleLogLevel, List.map_cons, hv, if_false] at this ⊢
    rw [this]

theorem get_unknown_module (table : List (String × level_enum)) (M : String)
    (h : M ∉ table.map Prod.fst) : GetModuleLogLevel table M = .info := by
  induction table with
  | nil => rfl
  | cons v rest ih =>
    have hv : ¬ v.1 = M := fun h1 => h (by simp [h1.symm])
    have hrest : M ∉ rest.map Prod.fst := fun h1 => h (by simp at h1 ⊢; exact Or.inr h1)
    have := ih hrest
    simp only [GetModuleLogLevel, List.find?, hv, decide_False] at this ⊢
    exact this

/-- C12. For a registered module `M` and a severity `S`, after
`SetModuleLogLevel(M, S)` the call `GetModuleLogLevel(M)` returns `S`; the
level of every other module is unchanged and no module is added or dropped;
for a module name that is not registered `SetModuleLogLevel` changes nothing
and `GetModuleLogLevel` returns `info`. The statement `SDS_LOG_LEVEL(M, S)`
makes `module_level_M` equal `S` and leaves every other level variable and
everything else in the environment as it was. -/
theorem set_then_get_module_level (table : List (String × level_enum)) (M : String)
    (S : level_enum) :
    (M ∈ table.map Prod.fst → GetModuleLogLevel (SetModuleLogLevel table M S) M = S) ∧
    (∀ M', M' ≠ M →
      GetModuleLogLevel (SetModuleLogLevel table M S) M' = GetModuleLogLevel table M') ∧
    (SetModuleLogLevel table M S).map Prod.fst = table.map Prod.fst ∧
    (M ∉ table.map Prod.fst →
      SetModuleLogLevel table M S = table ∧ GetModuleLogLevel table M = .info) ∧
    (∀ env : Env,
      (SDS_LOG_LEVEL env M S).module_level M = S ∧
      (∀ M', M' ≠ M → (SDS_LOG_LEVEL env M S).module_level M' = env.module_level M') ∧
      (SDS_LOG_LEVEL env M S).NDEBUG = env.NDEBUG ∧
      (SDS_LOG_LEVEL env M S).non_null = env.non_null ∧
      (SDS_LOG_LEVEL env M S).crash_handler_installed = env.crash_handler_installed) := by
  refine ⟨get_after_set_same table M S, fun M' h => get_after_set_other table M M' S h, ?_,
    fun h => ⟨set_unknown_module table M S h, get_unknown_module table M h⟩, ?_⟩
  · unfold SetModuleLogLevel
    rw [List.map_map]
    apply List.map_congr_left
    intro v _
    by_cases hv : v.1 = M <;> simp [hv]
  · intro env
    refine ⟨by simp [SDS_LOG_LEVEL], ?_, rfl, rfl, rfl⟩
    intro M' h
    simp [SDS_LOG_LEVEL, h]

/-- C12, witness: with `network` and `storage` registered at `info` by
`SDS_LOGGING_INIT`, setting `storage` to `debug` gives `debug` for `storage`,
and setting the unregistered `cache` changes nothing. -/
theorem set_then_get_module_level_witness :
    GetModuleLogLevel
      (SetModuleLogLevel (SDS_LOGGING_INIT ["network", "storage"]).module_level "storage"
        .debug) "storage" = .debug ∧
    SetModuleLogLevel (SDS_LOGGING_INIT ["network", "storage"]).module_level "cache" .debug =
      (SDS_LOGGING_INIT ["network", "storage"]).module_level ∧
    GetModuleLogLevel (SDS_LOGGING_INIT ["network", "storage"]).module_level "cache" = .info ∧
    SetModuleLogLevel (SDS_LOGGING_INIT ["network", "storage"]).module_level "storage" .debug =
      [("base", .info), ("network", .info), ("storage", .debug)] :=
  ⟨(set_then_get_module_level (SDS_LOGGING_INIT ["network", "storage"]).module_level "storage"
      .debug).1 (by decide),
    ((set_then_get_module_level (SDS_LOGGING_INIT ["network", "storage"]).module_level "cache"
      .debug).2.2.2.1 (by decide)).1,
    ((set_then_get_module_level (SDS_LOGGING_INIT ["network", "storage"]).module_level "cache"
      .debug).2.2.2.1 (by decide)).2,
    by decide⟩

/-- C13. For every list of module names, `SDS_LOGGING_INIT` defines the level
variables of `base` and of the names, in that order and one for each, every
one with the initial level `info`, and sets `glob_enabled_mods` to `base`
followed by the names: as many strings as level variables, one more than the
names given. -/
theorem logging_init_registers_base_and_modules (mods : List String) :
    (SDS_LOGGING_INIT mods).module_level.map Prod.fst = "base" :: mods ∧
    (∀ v ∈ (SDS_LOGGING_INIT mods).module_level, v.2 = .info) ∧
    (∀ m ∈ "base" :: mods, GetModuleLogLevel (SDS_LOGGING_INIT mods).module_level m = .info) ∧
    (SDS_LOGGING_INIT mods).glob_enabled_mods = "base" :: mods ∧
    (SDS_LOGGING_INIT mods).module_level.length = mods.length + 1 ∧
    (SDS_LOGGING_INIT mods).glob_enabled_mods.length =
      (SDS_LOGGING_INIT mods).module_level.length := by
  have hall : ∀ v ∈ (SDS_LOGGING_INIT mods).module_level, v.2 = .info := by
    intro v hv
    simp only [SDS_LOGGING_INIT, List.mem_map] at hv
    rcases hv with ⟨m, _, rfl⟩
    rfl
  refine ⟨?_, hall, ?_, ?_, ?_, ?_⟩
  · simp [SDS_LOGGING_INIT, MODLEVELDEF, Function.comp_def]
  · intro m _
    unfold GetModuleLogLevel
    cases hf : List.find? (fun v => decide (v.1 = m)) (SDS_LOGGING_INIT mods).module_level with
    | none => rfl
    | some v => exact hall v (List.mem_of_find?_eq_some hf)
  · have hid : ∀ l : List String, List.map MOD_LEVEL_STRING l = l := by
      intro l
      induction l with
      | nil => rfl
      | cons m rest ih => rw [List.map_cons, ih]; rfl
    simp [SDS_LOGGING_INIT, hid, MOD_LEVEL_STRING]
  · simp [SDS_LOGGING_INIT]
  · simp [SDS_LOGGING_INIT]

/-- C13, witness: `SDS_LOGGING_INIT(network, storage)`. -/
theorem logging_init_registers_base_and_modules_witness :
    (SDS_LOGGING_INIT ["network", "storage"]).module_level =
      [("base", .info), ("network", .info), ("storage", .info)] ∧
    (SDS_LOGGING_INIT ["network", "storage"]).glob_enabled_mods =
      ["base", "network", "storage"] ∧
    (SDS_LOGGING_INIT ["network", "storage"]).module_level.map Prod.fst =
      "base" :: ["network", "storage"] :=
  ⟨by decide, by decide, (logging_init_registers_base_and_modules ["network", "storage"]).1⟩

/-! ## Lemmas on the file name helpers -/

theorem str_end_eq (p : List Char) (hp : NUL ∉ p) : ∀ i, str_end p i = i + p.length := by
  induction p with
  | nil => intro i; rfl
  | cons c rest ih =>
    intro i
    have hc : c ≠ NUL := fun h => hp (h ▸ List.mem_cons_self _ _)
    have hrest : NUL ∉ rest := fun h => hp (List.mem_cons_of_mem _ h)
    simp only [str_end, hc, ne_eq, not_false_eq_true, if_true, ih hrest, List.length_cons]
    omega

theorem str_slant_false (p : List Char) (h : '/' ∉ p) : str_slant p = false := by
  induction p with
  | nil => rfl
  | cons c rest ih =>
    have hc : c ≠ '/' := fun h1 => h (h1 ▸ List.mem_cons_self _ _)
    have hrest : '/' ∉ rest := fun h1 => h (List.mem_cons_of_mem _ h1)
    simp only [str_slant, hc, if_false, ih hrest]
    split <;> rfl

theorem str_slant_true (p : List Char) (hp : NUL ∉ p) (h : '/' ∈ p) : str_slant p = true := by
  induction p with
  | nil => simp at h
  | cons c rest ih =>
    have hc : c ≠ NUL := fun h1 => hp (h1 ▸ List.mem_cons_self _ _)
    have hrest : NUL ∉ rest := fun h1 => hp (List.mem_cons_of_mem _ h1)
    by_cases hs : c = '/'
    · simp [str_slant, hs]
    · have h2 : '/' ∈ rest := by
        rcases List.mem_cons.1 h with h1 | h1
        · exact absurd h1.symm hs
        · exact h1
      simp [str_slant, hs, hc, ih hrest h2]

theorem str_end_reads_bound (p : List Char) :
    ∀ (i : Nat) (k : Int), k ∈ str_end_reads p i → (i : Int) ≤ k ∧ k ≤ (i : Int) + p.length := by
  induction p with
  | nil =>
    intro i k hk
    simp [str_end_reads] at hk
    subst hk
    simp
  | cons c rest ih =>
    intro i k hk
    simp only [str_end_reads, List.mem_cons] at hk
    rcases hk with rfl | hk
    · simp only [List.length_cons]
      push_cast
      omega
    · split at hk
      · have := ih (i + 1) k hk
        simp only [List.length_cons]
        push_cast at this ⊢
        omega
      · simp at hk

theorem str_slant_reads_bound (p : List Char) :
    ∀ (i : Nat) (k : Int), k ∈ str_slant_reads p i → (i : Int) ≤ k ∧ k ≤ (i : Int) + p.length := by
  induction p with
  | nil =>
    intro i k hk
    simp [str_slant_reads] at hk
    subst hk
    simp
  | cons c rest ih =>
    intro i k hk
    simp only [str_slant_reads, List.mem_cons] at hk
    rcases hk with rfl | hk
    · simp only [List.length_cons]
      push_cast
      omega
    · split at hk
      · simp at hk
      · split at hk
        · have := ih (i + 1) k hk
          simp only [List.length_cons]
          push_cast at this ⊢
          omega
        · simp at hk

theorem read_append_right (pre q : List Char) (k : Nat) :
    read (pre ++ q) (pre.length + k) = read q k := by
  unfold read
  simp only [List.length_append, Nat.add_lt_add_iff_left, Nat.add_left_cancel_iff]
  split
  · simp [List.getElem?_append_right]
  · rfl

theorem read_cons_succ (c : Char) (q : List Char) (k : Nat) :
    read (c :: q) (k + 1) = read q k := by
  unfold read
  simp only [List.length_cons, Nat.add_lt_add_iff_right, Nat.add_right_cancel_iff]
  split
  · simp
  · rfl

theorem read_in_bounds (q : List Char) (k : Nat) (hk : k ≤ q.length) :
    ∃ c, read q k = some c ∧ (c ∈ q ∨ c = NUL) := by
  unfold read
  by_cases h : k < q.length
  · refine ⟨q[k], ?_, Or.inl (List.getElem_mem _)⟩
    simp [h]
  · have : k = q.length := by omega
    exact ⟨NUL, by simp [this], Or.inr rfl⟩

theorem r_slant_at_slash (p : List Char) (i : Nat) (h : read p i = some '/') :
    r_slant p i = some (i + 1) ∧ r_slant_reads p i = [(i : Int)] := by
  cases i with
  | zero => simp [r_slant, r_slant_reads, h]
  | succ j => simp [r_slant, r_slant_reads, h]

theorem r_slant_step (p : List Char) (i : Nat) (c : Char) (h : read p (i + 1) = some c)
    (hc : c ≠ '/') :
    r_slant p (i + 1) = r_slant p i ∧
    r_slant_reads p (i + 1) = ((i : Int) + 1) :: r_slant_reads p i := by
  simp [r_slant, r_slant_reads, h, hc]

theorem r_slant_after_slash (pre post : List Char) (hpost : '/' ∉ post) :
    ∀ k, k ≤ post.length + 1 →
      r_slant (pre ++ '/' :: post) (pre.length + k) = some (pre.length + 1) ∧
      ∀ i ∈ r_slant_reads (pre ++ '/' :: post) (pre.length + k),
        (pre.length : Int) ≤ i ∧ i ≤ (pre.length : Int) + k := by
  intro k
  induction k with
  | zero =>
    intro _
    have h : read (pre ++ '/' :: post) (pre.length + 0) = some '/' := by
      rw [read_append_right]
      simp [read]
    have h2 := r_slant_at_slash _ _ h
    refine ⟨h2.1, ?_⟩
    intro i hi
    rw [h2.2] at hi
    simp at hi
    subst hi
    simp
  | succ k ih =>
    intro hk
    obtain ⟨c, hc, hmem⟩ := read_in_bounds post k (by omega)
    have hread : read (pre ++ '/' :: post) (pre.length + k + 1) = some c := by
      have := read_append_right pre ('/' :: post) (k + 1)
      rw [read_cons_succ] at this
      rw [← hc, ← this]
      rfl
    have hne : c ≠ '/' := by
      rcases hmem with h1 | h1
      · intro h2
        exact hpost (h2 ▸ h1)
      · rw [h1]
        decide
    have hstep := r_slant_step _ _ c hread hne
    have hprev := ih (by omega)
    have hidx : pre.length + (k + 1) = pre.length + k + 1 := rfl
    rw [hidx, hstep.1, hstep.2]
    refine ⟨hprev.1, ?_⟩
    intro i hi
    rcases List.mem_cons.1 hi with rfl | hi
    · push_cast
      omega
    · have := hprev.2 i hi
      push_cast
      omega

theorem r_slant_without_slash (p : List Char) (hp : '/' ∉ p) :
    ∀ i, i ≤ p.length → r_slant p i = none ∧ (-1 : Int) ∈ r_slant_reads p i := by
  intro i
  induction i with
  | zero =>
    intro _
    obtain ⟨c, hc, hmem⟩ := read_in_bounds p 0 (Nat.zero_le _)
    have hne : c ≠ '/' := by
      rcases hmem with h1 | h1
      · intro h2
        exact hp (h2 ▸ h1)
      · rw [h1]
        decide
    simp [r_slant, r_slant_reads, hc, hne]
  | succ i ih =>
    intro hi
    obtain ⟨c, hc, hmem⟩ := read_in_bounds p (i + 1) hi
    have hne : c ≠ '/' := by
      rcases hmem with h1 | h1
      · intro h2
        exact hp (h2 ▸ h1)
      · rw [h1]
        decide
    have hstep := r_slant_step p i c hc hne
    have hprev := ih (by omega)
    rw [hstep.1, hstep.2]
    exact ⟨hprev.1, List.mem_cons_of_mem _ hprev.2⟩

theorem last_slash_split (p : List Char) (h : '/' ∈ p) :
    ∃ pre post, p = pre ++ '/' :: post ∧ '/' ∉ post := by
  have hr : '/' ∈ p.reverse := List.mem_reverse.2 h
  obtain ⟨as, bs, hsplit, hnot⟩ := List.eq_append_cons_of_mem hr
  refine ⟨bs.reverse, as.reverse, ?_, ?_⟩
  · have := congrArg List.reverse hsplit
    simpa using this
  · simpa using hnot

theorem file_name_of_split (pre post : List Char) (hp : NUL ∉ pre ++ '/' :: post)
    (hpost : '/' ∉ post) : file_name (pre ++ '/' :: post) = some post := by
  have hs : str_slant (pre ++ '/' :: post) = true := str_slant_true _ hp (by simp)
  have he : str_end (pre ++ '/' :: post) 0 = pre.length + (post.length + 1) := by
    rw [str_end_eq _ hp]
    simp
  have hr := (r_slant_after_slash pre post hpost (post.length + 1) (Nat.le_refl _)).1
  unfold file_name
  rw [hs, he, hr]
  simp

theorem file_name_returns_value (p : List Char) (hp : NUL ∉ p) :
    ∃ r, file_name p = some r := by
  by_cases h : '/' ∈ p
  · obtain ⟨pre, post, hpq, hpost⟩ := last_slash_split p h
    subst hpq
    exact ⟨post, file_name_of_split pre post hp hpost⟩
  · refine ⟨p, ?_⟩
    unfold file_name
    rw [str_slant_false p h]
    rfl

/-! ## Claims on the file name helpers and the comparing assertions -/

/-- C14. For the characters `p` of a NUL-terminated path, `file_name` returns
`p` itself when `p` holds no slash, and the characters after the last slash
when it holds one; in both cases the result is a suffix of `p` without slash
on which `file_name` changes nothing. -/
theorem file_name_is_after_last_slash (p : List Char) (hp : NUL ∉ p) :
    ('/' ∉ p → file_name p = some p) ∧
    (∀ pre post, p = pre ++ '/' :: post → '/' ∉ post → file_name p = some post) ∧
    (∃ r, file_name p = some r ∧ r <:+ p ∧ '/' ∉ r ∧ file_name r = some r) := by
  have hnone : ∀ q : List Char, '/' ∉ q → file_name q = some q := by
    intro q hq
    unfold file_name
    rw [str_slant_false q hq]
    rfl
  have hsplit : ∀ pre post, p = pre ++ '/' :: post → '/' ∉ post → file_name p = some post := by
    intro pre post hpq hpost
    subst hpq
    exact file_name_of_split pre post hp hpost
  refine ⟨hnone p, hsplit, ?_⟩
  by_cases h : '/' ∈ p
  · obtain ⟨pre, post, hpq, hpost⟩ := last_slash_split p h
    refine ⟨post, hsplit pre post hpq hpost, ?_, hpost, hnone post hpost⟩
    rw [hpq]
    exact ⟨pre ++ ['/'], by simp⟩
  · exact ⟨p, hnone p h, List.suffix_refl p, h, hnone p h⟩

/-- C14, witness: `/a/b/logging.h` gives `logging.h`, `logging.h` gives itself
and `dir/` gives the empty name. -/
theorem file_name_is_after_last_slash_witness :
    file_name "/a/b/logging.h".toList = some "logging.h".toList ∧
    file_name "logging.h".toList = some "logging.h".toList ∧
    file_name "dir/".toList = some [] :=
  ⟨(file_name_is_after_last_slash "/a/b/logging.h".toList (by decide)).2.1
      "/a/b".toList "logging.h".toList (by decide) (by decide),
    (file_name_is_after_last_slash "logging.h".toList (by decide)).1 (by decide),
    (file_name_is_after_last_slash "dir/".toList (by decide)).2.1
      "dir".toList [] (by decide) (by decide)⟩

/-- C15, on the code. `LOGMSG_ASSERT_GE(a, b)` hands
`LOGMSG_ASSERT_CMP_DEFAULT_FMT` the two arguments `a` and `>= b`, which do
not fit its three parameters, where `RELEASE_ASSERT_GE(a, b)` hands
`RELEASE_ASSERT_CMP_DEFAULT_FMT` the three arguments `a`, `>=`, `b`; with a
further argument `m` the operator parameter is `>= b`, the second operand is
`m` and the condition reads `((a)>= b(m))`. For every other flavour the two
families hand over the same arguments. -/
theorem logmsg_assert_ge_hands_two_arguments :
    LOGMSG_ASSERT_flavour_args .GE "a" "b" [] = ["a", ">= b"] ∧
    RELEASE_ASSERT_flavour_args .GE "a" "b" [] = ["a", ">=", "b"] ∧
    checked_condition (LOGMSG_ASSERT_flavour_args .GE "a" "b" []) = none ∧
    checked_condition (RELEASE_ASSERT_flavour_args .GE "a" "b" []) = some "((a)>=(b))" ∧
    CMP_DEFAULT_FMT_params (LOGMSG_ASSERT_flavour_args .GE "a" "b" ["m"]) =
      some ("a", ">= b", "m", []) ∧
    checked_condition (LOGMSG_ASSERT_flavour_args .GE "a" "b" ["m"]) = some "((a)>= b(m))" ∧
    (∀ (flavour : CmpFlavour) (val1 val2 : String) (va_args : List String), flavour ≠ .GE →
      LOGMSG_ASSERT_flavour_args flavour val1 val2 va_args =
        RELEASE_ASSERT_flavour_args flavour val1 val2 va_args) := by
  refine ⟨by decide, by decide, by decide, by decide, by decide, by decide, ?_⟩
  intro flavour val1 val2 va_args h
  cases flavour <;> first | rfl | exact absurd rfl h

/-- C16. For the characters `p` of a NUL-terminated string of length `n`,
`file_name` returns a value and every read of its evaluation is at an index
from `0` to `n`: `str_end` returns the index `n` of the terminator, the reads
of `str_slant` and `str_end` stay within `0..n`, `r_slant` runs only when
`str_slant` is true, and then it starts at `n`, stops at the last slash, at
some index `j`, and reads nothing below `j`. On a string without slash
`r_slant` started at `n` reads index `-1`. -/
theorem file_name_reads_within_string (p : List Char) (hp : NUL ∉ p) :
    (∃ r, file_name p = some r) ∧
    (∀ i ∈ file_name_reads p, 0 ≤ i ∧ i ≤ (p.length : Int)) ∧
    str_end p 0 = p.length ∧
    (∀ i ∈ str_slant_reads p 0, 0 ≤ i ∧ i ≤ (p.length : Int)) ∧
    (∀ i ∈ str_end_reads p 0, 0 ≤ i ∧ i ≤ (p.length : Int)) ∧
    (str_slant p = false → file_name_reads p = str_slant_reads p 0) ∧
    (str_slant p = true →
      ∃ j, j < p.length ∧ p.get? j = some '/' ∧ (∀ k, j < k → p.get? k ≠ some '/') ∧
        r_slant p (str_end p 0) = some (j + 1) ∧
        ∀ i ∈ r_slant_reads p (str_end p 0), (j : Int) ≤ i ∧ i ≤ (p.length : Int)) ∧
    ('/' ∉ p → r_slant p p.length = none ∧ (-1 : Int) ∈ r_slant_reads p p.length) := by
  have hend : str_end p 0 = p.length := by
    rw [str_end_eq p hp]
    simp
  have hfwd1 : ∀ i ∈ str_slant_reads p 0, 0 ≤ i ∧ i ≤ (p.length : Int) := by
    intro i hi
    have := str_slant_reads_bound p 0 i hi
    simpa using this
  have hfwd2 : ∀ i ∈ str_end_reads p 0, 0 ≤ i ∧ i ≤ (p.length : Int) := by
    intro i hi
    have := str_end_reads_bound p 0 i hi
    simpa using this
  have hback : str_slant p = true →
      ∃ j, j < p.length ∧ p.get? j = some '/' ∧ (∀ k, j < k → p.get? k ≠ some '/') ∧
        r_slant p (str_end p 0) = some (j + 1) ∧
        ∀ i ∈ r_slant_reads p (str_end p 0), (j : Int) ≤ i ∧ i ≤ (p.length : Int) := by
    intro hs
    have hmem : '/' ∈ p := by
      by_contra hno
      rw [str_slant_false p hno] at hs
      exact Bool.false_ne_true hs
    obtain ⟨pre, post, hpq, hpost⟩ := last_slash_split p hmem
    have hlen : p.length = pre.length + (post.length + 1) := by
      rw [hpq]
      simp
    have hr := r_slant_after_slash pre post hpost (post.length + 1) (Nat.le_refl _)
    rw [← hpq, ← hlen] at hr
    refine ⟨pre.length, by omega, ?_, ?_, ?_, ?_⟩
    · rw [hpq, List.get?_eq_getElem?, List.getElem?_append_right (Nat.le_refl _)]
      simp
    · intro k hk hget
      rw [hpq] at hget
      have hk2 : pre.length ≤ k := by omega
      rw [List.get?_eq_getElem?, List.getElem?_append_right hk2] at hget
      obtain ⟨m, hm⟩ : ∃ m, k - pre.length = m + 1 := ⟨k - pre.length - 1, by omega⟩
      rw [hm, List.getElem?_cons_succ] at hget
      exact hpost (List.getElem?_mem hget)
    · rw [hend]
      exact hr.1
    · rw [hend]
      intro i hi
      have := hr.2 i hi
      rw [hlen]
      push_cast at this ⊢
      omega
  refine ⟨?_, ?_, hend, hfwd1, hfwd2, ?_, hback, ?_⟩
  · exact (file_name_returns_value p hp)
  · intro i hi
    unfold file_name_reads at hi
    rcases List.mem_append.1 hi with hi | hi
    · exact hfwd1 i hi
    · cases hs : str_slant p
      · simp [hs] at hi
      · simp only [hs, if_true] at hi
        rcases List.mem_append.1 hi with hi | hi
        · exact hfwd2 i hi
        · obtain ⟨j, _, _, _, _, hb⟩ := hback hs
          have := hb i hi
          omega
  · intro hs
    simp [file_name_reads, hs]
  · intro hno
    exact r_slant_without_slash p hno p.length (Nat.le_refl _)

/-- C16, witness: the reads of `file_name` on `dir/x`, of length 5, and the
read at index `-1` of `r_slant` on `abc`. -/
theorem file_name_reads_within_string_witness :
    (∀ i ∈ file_name_reads "dir/x".toList, 0 ≤ i ∧ i ≤ ("dir/x".toList.length : Int)) ∧
    file_name_reads "dir/x".toList = [0, 1, 2, 3, 0, 1, 2, 3, 4, 5, 5, 4, 3] ∧
    r_slant "abc".toList 3 = none ∧
    r_slant_reads "abc".toList 3 = [3, 2, 1, 0, -1] :=
  ⟨(file_name_reads_within_string "dir/x".toList (by decide)).2.1, by decide, by decide,
    by decide⟩


end sds_logging
